import Mathlib

/-!
# HUB12 LED panel frame buffer driver (`drivers/video/hub12fb.c`)

A shallow embedding of the scan engine of the driver: the frame converter
`do_vsync`, the SPI completion handler `shift_scanline_completion`, the
transfer request `shift_scanline_start`, the scheduler tick `do_hsync`, the
life cycle functions `hub12fb_start_running` / `hub12fb_stop_running` and the
brightness computation `hub12fb_set_brightness`.

Conventions of the embedding

* `struct hub12_par` becomes the record `hub12_par`; every C function becomes
  a function from the record to the record.
* A C function that can run into undefined behaviour (a read or write outside
  an allocation, a NULL dereference, a signed overflow of an array index) or
  that does not terminate returns `none` there; otherwise `some` of the new
  state.
* `u16` counters are natural numbers reduced modulo `65536`; `int`, `s64` and
  `ktime_t` values are integers; the `s64` product of the brightness
  computation wraps modulo `2^64`, as the kernel is built to do.
* Calls into the kernel that act on the hardware (`gpio_set_value`,
  `hrtimer_start`, `hrtimer_cancel`, `spi_async_locked`) are recorded, in the
  order of the calls, in the field `trace` of the record.
* Every function is one step: a callback runs from its first statement to its
  last before the next function starts.
-/

namespace Hub12fb

/-! ## Data model -/

/-- The four output lines of `struct hub12_gpios`. A call
`gpio_set_value(par->pdata.gpio.X, v)` is recorded under the field `X` it passes. -/
inductive gpio_line where
  | enable
  | latch
  | a
  | b
  deriving DecidableEq, Repr

/-- The two `struct hrtimer` members of `struct hub12_par`. -/
inductive timer_id where
  | hsync_timer
  | ledon_timer
  deriving DecidableEq, Repr

/-- A call that leaves the driver. `do_vsync` is no kernel call: the entry records
each run of the frame converter `do_vsync`, so that its runs can be counted. -/
inductive hw_event where
  | gpio_set_value (line : gpio_line) (value : Int)
  | hrtimer_start (timer : timer_id) (period : Int)
  | hrtimer_cancel (timer : timer_id)
  | spi_async_locked (tx_buf : Option Nat) (len : Nat)
  | do_vsync
  deriving DecidableEq, Repr

/-- Pin numbers of `struct hub12_gpios`. -/
structure hub12_gpios where
  enable : Nat
  latch : Nat
  a : Nat
  b : Nat
  deriving DecidableEq, Repr

/-- The record `struct hub12fb_platform_data` of `include/video/hub12fb.h`;
all members are `unsigned`. -/
structure hub12fb_platform_data where
  gpio : hub12_gpios
  width : Nat
  height : Nat
  refresh : Nat
  brightness : Nat
  deriving DecidableEq, Repr

/-- The record `struct hub12_par`.

* `fb_buffer`, `hsync_buf`: the contents of the allocations the pointers refer
  to, `none` for a NULL pointer; a byte is a natural number.
* `transfer_tx_buf`: `t->tx_buf`, as the index of the scan buffer it points to.
* `hsync_period`, `ledon_period`: `ktime_t` in nanoseconds.
* `running`, `hsync_running`, `vsync_flag`: the one bit wide members.
* `trace`: the calls made so far, oldest first. -/
structure hub12_par where
  pdata : hub12fb_platform_data
  fb_buffer : Option (List Nat)
  hsync_buf : List (Option (List Nat))
  hsync_length : Nat
  transfer_tx_buf : Option Nat
  transfer_len : Nat
  hsync_period : Int
  ledon_period : Int
  vsync_timeout : Int
  blank : Int
  running : Bool
  hsync_running : Bool
  vsync_flag : Bool
  i_scan : Int
  trace : List hw_event
  deriving DecidableEq, Repr

/-- The constant `default_platform_data`. -/
def default_platform_data : hub12fb_platform_data :=
  { gpio := { enable := 18, latch := 17, a := 22, b := 27 },
    width := 32, height := 16, refresh := 60, brightness := 128 }

/-- The constant table `test_pattern_32_16`. -/
def test_pattern_32_16 : List Nat :=
  [0xFF, 0xFF, 0xFF, 0xFF,
   0x30, 0x00, 0x30, 0x0C,
   0x50, 0xC0, 0x50, 0x0A,
   0x90, 0x21, 0x90, 0x09,
   0x11, 0xC0, 0x11, 0x88,
   0x12, 0x00, 0x12, 0x48,
   0x14, 0x00, 0x14, 0x28,
   0x18, 0x00, 0x18, 0x18,
   0x10, 0x10, 0x18, 0x18,
   0x12, 0x20, 0x14, 0x28,
   0x15, 0x40, 0x12, 0x58,
   0x98, 0x80, 0x19, 0x98,
   0x15, 0x01, 0x90, 0x19,
   0x12, 0x02, 0x50, 0x1A,
   0x10, 0x01, 0x38, 0x3C,
   0xFE, 0xC8, 0xF3, 0x1F]

/-- The kernel constant `FB_BLANK_UNBLANK` of `linux/fb.h`. -/
def FB_BLANK_UNBLANK : Int := 0

/-- The kernel constant `ETIMEDOUT`. -/
def ETIMEDOUT : Int := 110

/-- The kernel constant `ERESTARTSYS`. -/
def ERESTARTSYS : Int := 512

/-- The state after `memset(par, 0, sizeof(struct hub12_par))` in `hub12fb_probe`
and the copy of the platform data. -/
def par_zeroed (pdata : hub12fb_platform_data) : hub12_par :=
  { pdata := pdata, fb_buffer := none, hsync_buf := [none, none, none, none],
    hsync_length := 0, transfer_tx_buf := none, transfer_len := 0,
    hsync_period := 0, ledon_period := 0, vsync_timeout := 0, blank := 0,
    running := false, hsync_running := false, vsync_flag := false, i_scan := 0,
    trace := [] }

/-! ## The frame converter `do_vsync` -/

/-- The number of values of a `u16` counter plus one: a loop over a `u16` counter
that has not left after this many tests of its condition never leaves. -/
def u16_fuel : Nat := 65537

/-- The loop `for (c = c0; c < bound; c++) body` over a `u16` counter `c`:
`c++` wraps modulo `65536`, `none` when the fuel runs out or the body fails. -/
def for_u16 {σ : Type} (bound : Nat) (body : Nat → σ → Option σ) :
    Nat → Nat → σ → Option σ
  | 0, _, _ => none
  | fuel + 1, c, s =>
    if c < bound then
      (body c s).bind (fun s' => for_u16 bound body fuel ((c + 1) % 65536) s')
    else some s

/-- The pointer `lb` of `do_vsync`: the allocation it points into (`none` for
NULL) and its offset from the start of that allocation. -/
structure lb_cursor where
  buf : Option (List Nat)
  pos : Nat
  deriving DecidableEq, Repr

/-- The statement `*lb++ = fb[(j*16+l*4+i)*rowbytes + k]`. The index is computed
in `int`; it fails on signed overflow, on a read outside `fb` and on a write
outside the allocation of `lb`. -/
def do_vsync_store (fb : Option (List Nat)) (rowbytes i j k l : Nat)
    (lb : lb_cursor) : Option lb_cursor :=
  let idx := (j * 16 + l * 4 + i) * rowbytes + k
  if idx < 2 ^ 31 then
    match fb.bind (fun m => m.get? idx), lb.buf with
    | some v, some b =>
      if lb.pos < b.length then some { buf := some (b.set lb.pos v), pos := lb.pos + 1 }
      else none
    | _, _ => none
  else none

/-- The three inner loops of `do_vsync` (over `j`, `k` and `l`) for one scan line `i`. -/
def do_vsync_scanline (fb : Option (List Nat)) (height rowbytes i : Nat)
    (lb : lb_cursor) : Option lb_cursor :=
  for_u16 (height / 16)
    (fun j lb => for_u16 rowbytes
      (fun k lb => for_u16 4
        (fun l lb => do_vsync_store fb rowbytes i j k l lb) u16_fuel 0 lb)
      u16_fuel 0 lb)
    u16_fuel 0 lb

/-- The body of the outer loop of `do_vsync`: `lb = par->hsync_buf[i]` and the inner loops. -/
def do_vsync_body (fb : Option (List Nat)) (height rowbytes : Nat) (i : Nat)
    (bufs : List (Option (List Nat))) : Option (List (Option (List Nat))) :=
  (bufs.get? i).bind (fun p =>
    (do_vsync_scanline fb height rowbytes i { buf := p, pos := 0 }).bind (fun lb =>
      some (bufs.set i lb.buf)))

/-- The function `do_vsync`. `rowbytes` is a `u16`, so `width/8` is reduced
modulo `65536`. -/
def do_vsync (par : hub12_par) : Option hub12_par :=
  let rowbytes := (par.pdata.width / 8) % 65536
  (for_u16 4 (do_vsync_body par.fb_buffer par.pdata.height rowbytes) u16_fuel 0
      par.hsync_buf).bind (fun bufs =>
    some { par with
      hsync_buf := bufs, i_scan := 0, vsync_flag := true,
      trace := par.trace ++ [hw_event.do_vsync] })

/-! ## The scan engine -/

/-- The table `avals` of `shift_scanline_completion`. -/
def avals : List Int := [0, 0, 1, 1]

/-- The table `bvals` of `shift_scanline_completion`. -/
def bvals : List Int := [0, 1, 0, 1]

/-- The read `table[index]` of an array through an `int` index: `none` outside the array. -/
def index_int {α : Type} (table : List α) (index : Int) : Option α :=
  if 0 ≤ index then table.get? index.toNat else none

/-- The function `shift_scanline_completion`, the completion callback of the SPI
transfer. -/
def shift_scanline_completion (par : hub12_par) : Option hub12_par :=
  (index_int avals par.i_scan).bind (fun a =>
  (index_int bvals par.i_scan).bind (fun b =>
    let t1 := par.trace ++
      [hw_event.gpio_set_value gpio_line.latch 1,
       hw_event.gpio_set_value gpio_line.a a,
       hw_event.gpio_set_value gpio_line.b b]
    let t2 :=
      if par.blank = FB_BLANK_UNBLANK ∧ par.running = true then
        t1 ++ [hw_event.gpio_set_value gpio_line.enable 1,
               hw_event.hrtimer_start timer_id.ledon_timer par.ledon_period]
      else t1
    let par1 := { par with trace := t2, i_scan := par.i_scan + 1 }
    (if par1.i_scan = 4 then do_vsync par1 else some par1).bind (fun par2 =>
      some { par2 with hsync_running := false })))

/-- The function `setup_hsync`: it clears `hsync_running` and sets the length of
the transfer; the other members of the transfer and of the message get constants,
and the completion callback is `shift_scanline_completion`. -/
def setup_hsync (par : hub12_par) : hub12_par :=
  { par with hsync_running := false, transfer_len := par.hsync_length }

/-- The function `shift_scanline_start`: nothing while a transfer is in flight;
otherwise `hsync_running` is set, `t->tx_buf` becomes the pointer
`par->hsync_buf[par->i_scan]` and the message is handed to the SPI master. -/
def shift_scanline_start (par : hub12_par) : Option hub12_par :=
  if par.hsync_running = true then some par
  else
    (index_int par.hsync_buf par.i_scan).bind (fun p =>
      let tx := p.map (fun _ => par.i_scan.toNat)
      some { par with
        hsync_running := true, transfer_tx_buf := tx,
        trace := par.trace ++ [hw_event.spi_async_locked tx par.transfer_len] })

/-- The values of `enum hrtimer_restart`. -/
inductive hrtimer_restart where
  | HRTIMER_NORESTART
  | HRTIMER_RESTART
  deriving DecidableEq, Repr

/-- The function `do_hsync`, the callback of `hsync_timer`. The two calls that move
the expiry of the running timer forward leave the record unchanged. -/
def do_hsync (par : hub12_par) : Option (hrtimer_restart × hub12_par) :=
  let par1 := { par with trace := par.trace ++ [hw_event.gpio_set_value gpio_line.latch 0] }
  if par1.running = false then
    some (hrtimer_restart.HRTIMER_NORESTART, { par1 with vsync_flag := true })
  else
    (shift_scanline_start par1).bind (fun par2 =>
      some (hrtimer_restart.HRTIMER_RESTART, par2))

/-- What happens while `wait_for_vsync` sleeps. Both timers are cancelled before
the only call of `wait_for_vsync`, so the one callback that can still run is the
completion of an SPI transfer in flight.

* `spi_completes`: the transfer in flight, if any, completes before the sleep ends;
* `signal_pending`: a signal ends the sleep. -/
structure wait_env where
  spi_completes : Bool
  signal_pending : Bool
  deriving DecidableEq, Repr

/-- The function `wait_for_vsync`: the return value and the state at return. The
sleep ends with a positive value when `vsync_flag` was set, with `-ERESTARTSYS` on
a signal and with `0` when `vsync_timeout` has passed. -/
def wait_for_vsync (par : hub12_par) (env : wait_env) : Option (Int × hub12_par) :=
  let par1 := { par with vsync_flag := false }
  (if par1.hsync_running = true ∧ env.spi_completes = true then
      shift_scanline_completion par1
    else some par1).bind (fun par2 =>
    if par2.vsync_flag = true then some (0, par2)
    else if env.signal_pending = true then some (-ERESTARTSYS, par2)
    else some (-ETIMEDOUT, par2))

/-- The function `hub12fb_stop_running`; the return value of `wait_for_vsync` is
dropped. -/
def hub12fb_stop_running (par : hub12_par) (env : wait_env) : Option hub12_par :=
  if par.running = true then
    let par1 := { par with
      running := false,
      trace := par.trace ++
        [hw_event.hrtimer_cancel timer_id.hsync_timer,
         hw_event.hrtimer_cancel timer_id.ledon_timer] }
    (wait_for_vsync par1 env).bind (fun r => some r.2)
  else some par

/-- The function `hub12fb_start_running`: nothing in a running state; otherwise a
first frame conversion, `setup_hsync`, `running = 1` and the start of the scan line
timer. -/
def hub12fb_start_running (par : hub12_par) : Option hub12_par :=
  if par.running = true then some par
  else
    (do_vsync par).bind (fun par1 =>
      let par2 := setup_hsync par1
      some { par2 with
        running := true,
        trace := par2.trace ++
          [hw_event.hrtimer_start timer_id.hsync_timer par2.hsync_period] })

/-! ## Brightness -/

/-- The value of an integer as an `s64` (two's complement, wrapping). -/
def to_s64 (x : Int) : Int := (x + 2 ^ 63) % 2 ^ 64 - 2 ^ 63

/-- The value of an integer as a `u64`. -/
def to_u64 (x : Int) : Int := x % 2 ^ 64

/-- The function `hub12fb_set_brightness`: the product of the `unsigned` brightness
and the `s64` period is an `s64`, the division truncates, the quotient is stored in
the `u64` variable `ns`, and `ns_to_ktime` makes it an `s64` again. -/
def hub12fb_set_brightness (par : hub12_par) : hub12_par :=
  let ns := to_u64 (Int.tdiv (to_s64 ((par.pdata.brightness : Int) * par.hsync_period)) 256)
  { par with ledon_period := to_s64 ns }

/-! ## The layout of a scan buffer and the invariants of the loops -/

/-- The index of the bitmap byte that belongs at offset `m` of scan buffer `i`:
with `m = j*rowbytes*4 + k*4 + l` it is `(j*16 + l*4 + i)*rowbytes + k`. -/
def src_index (rowbytes i m : Nat) : Nat :=
  (m / 4 / rowbytes * 16 + m % 4 * 4 + i) * rowbytes + m / 4 % rowbytes

/-- The state of the pointer `lb` after `n` stores into scan buffer `i`: the
first `n` bytes hold the bitmap bytes of the layout, the others are as in `b0`. -/
def scan_inv (fb b0 : List Nat) (rowbytes i n : Nat) (lb : lb_cursor) : Prop :=
  lb.pos = n ∧ ∃ b, lb.buf = some b ∧ b.length = b0.length ∧
    (∀ m, m < n → b[m]? = fb[src_index rowbytes i m]?) ∧
    (∀ m, n ≤ m → b[m]? = b0[m]?)

/-- Scan buffer `b` holds scan line `i` of the bitmap `fb`: the bytes of the
layout in front, and behind them what the buffer `b0` held before. -/
def scan_layout (fb b0 b : List Nat) (rowbytes height i : Nat) : Prop :=
  b.length = b0.length ∧
    (∀ m, m < height / 16 * rowbytes * 4 → b[m]? = fb[src_index rowbytes i m]?) ∧
    (∀ m, height / 16 * rowbytes * 4 ≤ m → b[m]? = b0[m]?)

/-- The state of the array `hsync_buf` after the outer loop of `do_vsync` has done
the scan lines below `i`. -/
def vsync_inv (fb : List Nat) (bufs0 : List (Option (List Nat))) (rowbytes height i : Nat)
    (bufs : List (Option (List Nat))) : Prop :=
  bufs.length = bufs0.length ∧
    (∀ n, n < i → ∃ b0 b, bufs0[n]? = some (some b0) ∧ bufs[n]? = some (some b) ∧
      scan_layout fb b0 b rowbytes height n) ∧
    (∀ n, i ≤ n → bufs[n]? = bufs0[n]?)

/-! ## Well-formed engine states -/

/-- The buffers of the record are those `hub12fb_allocate_buffers` sets up for the
geometry in `pdata`: a bitmap of `(width/8) * height` bytes and four scan buffers
of `hsync_length = (width/8) * height / 4` bytes. -/
def allocated (par : hub12_par) : Prop :=
  par.fb_buffer.map List.length = some (par.pdata.width / 8 * par.pdata.height) ∧
  par.hsync_length = par.pdata.width / 8 * par.pdata.height / 4 ∧
  par.hsync_buf.map (Option.map List.length) = List.replicate 4 (some par.hsync_length)

instance (par : hub12_par) : Decidable (allocated par) := by
  unfold allocated; infer_instance

/-- The geometry is one the `u16` counters and the `int` index of `do_vsync` can
walk: `width/8` and `height/16` fit a `u16` and the bitmap size fits an `int`. -/
def in_range (par : hub12_par) : Prop :=
  par.pdata.width / 8 ≤ 65535 ∧ par.pdata.height / 16 ≤ 65535 ∧
  par.pdata.width / 8 * par.pdata.height ≤ 2 ^ 31

instance (par : hub12_par) : Decidable (in_range par) := by
  unfold in_range; infer_instance

/-- An engine state with allocated buffers and a geometry in range. -/
def par_ok (par : hub12_par) : Prop := allocated par ∧ in_range par

instance (par : hub12_par) : Decidable (par_ok par) := by
  unfold par_ok; infer_instance

/-! ## Observations on the trace, and the operations as steps -/

/-- The calls `shift_scanline_completion` makes for row-select values `a`, `b`,
in their order: latch, row select, and in an unblanked running state the LED
enable and its timer. -/
def completion_calls (par : hub12_par) (a b : Int) : List hw_event :=
  [hw_event.gpio_set_value gpio_line.latch 1,
   hw_event.gpio_set_value gpio_line.a a,
   hw_event.gpio_set_value gpio_line.b b] ++
  (if par.blank = FB_BLANK_UNBLANK ∧ par.running = true then
    [hw_event.gpio_set_value gpio_line.enable 1,
     hw_event.hrtimer_start timer_id.ledon_timer par.ledon_period]
   else [])

/-- The number of runs of `do_vsync` recorded in the trace. -/
def vsync_runs (par : hub12_par) : Nat := par.trace.count hw_event.do_vsync

/-- The value `i_scan` has between two calls: an index of one of the four scan lines. -/
def i_scan_ok (par : hub12_par) : Prop := 0 ≤ par.i_scan ∧ par.i_scan < 4

instance (par : hub12_par) : Decidable (i_scan_ok par) :=
  inferInstanceAs (Decidable (0 ≤ par.i_scan ∧ par.i_scan < 4))

/-- The operations of the engine: `hub12fb_start_running`, `hub12fb_stop_running`,
the timer callback `do_hsync`, `shift_scanline_start`, `shift_scanline_completion`
and `do_vsync`. -/
inductive engine_op where
  | start
  | stop (env : wait_env)
  | tick
  | request
  | completion
  | convert
  deriving DecidableEq, Repr

/-- One operation of the engine on a state. -/
def engine_step : engine_op → hub12_par → Option hub12_par
  | engine_op.start, par => hub12fb_start_running par
  | engine_op.stop env, par => hub12fb_stop_running par env
  | engine_op.tick, par => (do_hsync par).map (fun r => r.2)
  | engine_op.request, par => shift_scanline_start par
  | engine_op.completion, par => shift_scanline_completion par
  | engine_op.convert, par => do_vsync par

/-! ## Concrete states -/

/-- A state as `hub12fb_set_par` leaves it for `default_platform_data` before it
starts the engine: a 64 byte bitmap holding the test pattern, four scan buffers of
16 bytes, a scan line period of `10^9 / 60 / 4` ns, brightness 128. -/
def par_32_16 : hub12_par :=
  { par_zeroed default_platform_data with
    fb_buffer := some test_pattern_32_16,
    hsync_buf := List.replicate 4 (some (List.replicate 16 0)),
    hsync_length := 16, hsync_period := 4166666, ledon_period := 2083333,
    vsync_timeout := 3 }

/-- A panel 524288 pixels wide and 16 pixels high with the buffers that
`hub12fb_allocate_buffers` sets up for it: a bitmap of `65536 * 16` bytes, here all
1, and four scan buffers of a quarter of that size, here all 0. -/
def par_wide : hub12_par :=
  { par_zeroed { default_platform_data with width := 524288 } with
    fb_buffer := some (List.replicate 1048576 1),
    hsync_buf := List.replicate 4 (some (List.replicate 262144 0)),
    hsync_length := 262144 }

/-- The byte that the inverse interleave of the specification,
`bitmap[(j*16 + l*4 + i)*rowbytes + k] := scan[i][j*rowbytes*4 + k*4 + l]`,
assigns to index `p` of the bitmap: `p` lies in row `p / rowbytes`, column
`k = p % rowbytes`, and row `j*16 + l*4 + i` is taken from scan buffer `i`. A byte
that no scan buffer holds reads as 0. -/
def inverse_byte (scan : List (Option (List Nat))) (rowbytes p : Nat) : Nat :=
  let row := p / rowbytes
  let k := p % rowbytes
  let j := row / 16
  let l := row % 16 / 4
  let i := row % 4
  (((scan.get? i).join).bind (fun b => b.get? (j * rowbytes * 4 + k * 4 + l))).getD 0

/-- The inverse interleave of the specification: the bitmap of `rowbytes * height`
bytes rebuilt from the four scan buffers. -/
def inverse_interleave (scan : List (Option (List Nat))) (rowbytes height : Nat) : List Nat :=
  (List.range (rowbytes * height)).map (inverse_byte scan rowbytes)

/-- The sleep of `wait_for_vsync` ends by the timeout: the SPI master has not yet
completed the transfer in flight and no signal is pending. -/
def env_timeout : wait_env := { spi_completes := false, signal_pending := false }

/-- The default 32x16 panel started, after the first tick of the scan line timer:
the engine is running and the transfer of scan line 0 is in flight. -/
def par_in_flight : Option hub12_par :=
  (hub12fb_start_running par_32_16).bind (fun p => (do_hsync p).map (fun r => r.2))

/-- The value of `ledon_period` after `hub12fb_set_brightness` for brightness `b`. -/
def ledon_after (par : hub12_par) (b : Nat) : Int :=
  (hub12fb_set_brightness { par with pdata := { par.pdata with brightness := b } }).ledon_period

/-- The default 32x16 panel, unblanked and running, with brightness 0 set by
`hub12fb_set_brightness`. -/
def par_dark : hub12_par :=
  hub12fb_set_brightness
    { par_32_16 with pdata := { par_32_16.pdata with brightness := 0 }, running := true }

/-! ## Geometry and timing: `fb_var_screeninfo`, `hub12fb_check_var` -/

/-- The record `struct fb_bitfield`. -/
structure fb_bitfield where
  offset : Nat
  length : Nat
  msb_right : Nat
  deriving DecidableEq, Repr

/-- The members of `struct fb_var_screeninfo` that the driver reads or writes; all
are `__u32`. -/
structure fb_var_screeninfo where
  xres : Nat
  yres : Nat
  xres_virtual : Nat
  yres_virtual : Nat
  xoffset : Nat
  yoffset : Nat
  bits_per_pixel : Nat
  red : fb_bitfield
  green : fb_bitfield
  blue : fb_bitfield
  transp : fb_bitfield
  height : Nat
  width : Nat
  pixclock : Nat
  left_margin : Nat
  right_margin : Nat
  upper_margin : Nat
  lower_margin : Nat
  vmode : Nat
  deriving DecidableEq, Repr

/-- The zeroed `struct fb_var_screeninfo` that `framebuffer_alloc` hands out. -/
def var_zeroed : fb_var_screeninfo :=
  { xres := 0, yres := 0, xres_virtual := 0, yres_virtual := 0, xoffset := 0, yoffset := 0,
    bits_per_pixel := 0,
    red := { offset := 0, length := 0, msb_right := 0 },
    green := { offset := 0, length := 0, msb_right := 0 },
    blue := { offset := 0, length := 0, msb_right := 0 },
    transp := { offset := 0, length := 0, msb_right := 0 },
    height := 0, width := 0, pixclock := 0,
    left_margin := 0, right_margin := 0, upper_margin := 0, lower_margin := 0, vmode := 0 }

/-- The number of values of a `u32`. -/
def U32 : Nat := 2 ^ 32

/-- The kernel constant `FB_VMODE_NONINTERLACED` of `linux/fb.h`. -/
def FB_VMODE_NONINTERLACED : Nat := 0

/-- The kernel constant `NSEC_PER_SEC` of `linux/time.h`. -/
def NSEC_PER_SEC : Nat := 1000000000

/-- The kernel constant `ENOMEM`. -/
def ENOMEM : Int := 12

/-- Modelled from the spec: the macro `KHZ2PICOS` of `linux/fb.h` is not among the
source files. It turns a frequency in kHz into a period in picoseconds,
`1000000000UL / a`; a division by 0 has no value. -/
def KHZ2PICOS (a : Nat) : Option Nat :=
  if a = 0 then none else some (1000000000 / a)

/-- Modelled from the spec: the macro `PICOS2KHZ` of `linux/fb.h` is not among the
source files. It turns a period in picoseconds into a frequency in kHz,
`1000000000UL / a`; a division by 0 has no value. -/
def PICOS2KHZ (a : Nat) : Option Nat :=
  if a = 0 then none else some (1000000000 / a)

/-- The function `refresh_to_pixclock`: the product `refresh * xres * yres` is a
`u32` and wraps, and so does the product with 1000 when it is stored in the `u32`
variable `pixclock`. -/
def refresh_to_pixclock (refresh : Nat) (var : fb_var_screeninfo) : Option Nat :=
  (KHZ2PICOS ((refresh * var.xres * var.yres) % U32)).map (fun p => (1000 * p) % U32)

/-- The function `hub12fb_refresh_rate`: the product `xres * yres` is a `u32` and
wraps; either division can be a division by 0. -/
def hub12fb_refresh_rate (var : fb_var_screeninfo) : Option Nat :=
  (PICOS2KHZ (var.pixclock / 1000)).bind (fun khz =>
    if (var.xres * var.yres) % U32 = 0 then none
    else some (khz / ((var.xres * var.yres) % U32)))

/-- The function `hub12fb_check_var`; all sums and products are `u32` and wrap. It
returns 0 whenever it returns; `none` stands for the division by 0 in
`refresh_to_pixclock`. -/
def hub12fb_check_var (var : fb_var_screeninfo) : Option fb_var_screeninfo :=
  let var1 := if var.xres = 0 then { var with xres := 1 } else var
  let var2 := if var1.yres = 0 then { var1 with yres := 1 } else var1
  let var3 := { var2 with
    xres := (((var2.xres + 31) % U32) / 32 * 32) % U32,
    yres := (((var2.yres + 15) % U32) / 16 * 16) % U32 }
  (refresh_to_pixclock 1000 var3).bind (fun limit =>
    (if var3.pixclock < limit then refresh_to_pixclock 1000 var3
     else some var3.pixclock).bind (fun pixclock =>
      some { var3 with
        pixclock := pixclock,
        xres_virtual := var3.xres, yres_virtual := var3.yres,
        xoffset := 0, yoffset := 0,
        height := (var3.yres * 10) % U32, width := (var3.xres * 10) % U32,
        upper_margin := 0, lower_margin := 0, left_margin := 0, right_margin := 0,
        bits_per_pixel := 1, vmode := FB_VMODE_NONINTERLACED,
        red := { offset := 0, length := 1, msb_right := 0 },
        green := { offset := 0, length := 1, msb_right := 0 },
        blue := { offset := 0, length := 1, msb_right := 0 },
        transp := { offset := 0, length := 0, msb_right := 0 } }))

/-! ## The mode string: `hub12fb_modestr_to_var` -/

/-- The characters `'0' ... '9'`. -/
def is_digit (c : Char) : Prop := 48 ≤ c.toNat ∧ c.toNat ≤ 57

instance (c : Char) : Decidable (is_digit c) :=
  inferInstanceAs (Decidable (48 ≤ c.toNat ∧ c.toNat ≤ 57))

/-- The digits at the start of a string, read as a decimal number after `acc`. -/
def strtol_digits : List Char → Nat → Nat
  | [], acc => acc
  | c :: cs, acc => if is_digit c then strtol_digits cs (acc * 10 + (c.toNat - 48)) else acc

/-- Modelled from the spec: the library function `simple_strtol` is not among the
source files. With base 10 it returns the number that the decimal digits at the
start of the string spell and stops at the first character that is no digit; the
grammar of the mode string takes each field as such a number. A sign, which the
scan of the mode string lets through to no call, is not modelled. -/
def simple_strtol (s : List Char) : Nat := strtol_digits s 0

/-- The local variables `refresh`, `yres`, `refresh_specified` and
`yres_specified` of `hub12fb_modestr_to_var`. -/
structure modestr_state where
  refresh : Nat
  yres : Nat
  refresh_specified : Bool
  yres_specified : Bool
  deriving DecidableEq, Repr

/-- The values the variables of `hub12fb_modestr_to_var` start with. -/
def modestr_init : modestr_state :=
  { refresh := 60, yres := 16, refresh_specified := false, yres_specified := false }

/-- The loop `for (i = namelen-1; i >= 0; i--) switch (name[i])` of
`hub12fb_modestr_to_var`. The first list holds `name[i], name[i-1], ..., name[0]`,
the characters still to scan, the second `name[i+1 ...]`, the string that
`&name[i+1]` points to. The result is the state of the variables and whether the
loop has run to its end (`i < 0`) and not left by `goto done`. -/
def modestr_scan : List Char → List Char → modestr_state → modestr_state × Bool
  | [], _, st => (st, true)
  | c :: left, right, st =>
    if c = '@' then
      if st.refresh_specified = false ∧ st.yres_specified = false then
        modestr_scan left (c :: right)
          { st with refresh := simple_strtol right % U32, refresh_specified := true }
      else (st, false)
    else if c = 'x' then
      if st.yres_specified = false then
        modestr_scan left (c :: right)
          { st with yres := simple_strtol right % U32, yres_specified := true }
      else (st, false)
    else if is_digit c then modestr_scan left (c :: right) st
    else (st, false)

/-- The call `hub12fb_refresh_rate(var)` among the arguments of the `printk` that
ends `hub12fb_modestr_to_var`: the function returns only if that call does. -/
def modestr_report (var : fb_var_screeninfo) : Option fb_var_screeninfo :=
  (hub12fb_refresh_rate var).map (fun _ => var)

/-- The statements of `hub12fb_modestr_to_var` from the label `done` on: the
fields that were parsed are stored, rounded up to the size of a module, and the
pixel clock is computed for the new geometry. `xres` is `none` when
`res_specified` is 0. -/
def modestr_apply (st : modestr_state) (xres : Option Nat) (var : fb_var_screeninfo) :
    Option fb_var_screeninfo :=
  let var1 := match xres with
    | some x => { var with xres := (32 * (((x + U32 - 1) % U32) / 32 + 1)) % U32 }
    | none => var
  let var2 :=
    if st.yres_specified = true then
      { var1 with yres := (16 * (((st.yres + U32 - 1) % U32) / 16 + 1)) % U32 }
    else var1
  (if st.refresh_specified = true then
      (refresh_to_pixclock st.refresh var2).map (fun p => { var2 with pixclock := p })
    else some var2).bind modestr_report

/-- The value of an integer as an `int` (two's complement, wrapping). -/
def to_s32 (x : Int) : Int := (x + 2 ^ 31) % 2 ^ 32 - 2 ^ 31

/-- The default mode string `"32x32@60"` of `hub12fb_modestr_to_var`. -/
def default_mode_option : List Char := ['3', '2', 'x', '3', '2', '@', '6', '0']

/-- The function `hub12fb_modestr_to_var`. `namelen` is the `unsigned int` value of
`strlen(name)` and `i` starts as the `int` value of `namelen - 1`: for the empty
string, and for a string too long for an `int`, it is negative and the loop has
no turn. The function returns 0 whenever it returns. -/
def hub12fb_modestr_to_var (mode_option : Option (List Char)) (var : fb_var_screeninfo) :
    Option fb_var_screeninfo :=
  let name := match mode_option with
    | some s => s
    | none => default_mode_option
  let namelen := name.length % U32
  let i0 := to_s32 ((namelen : Int) - 1)
  let r :=
    if 0 ≤ i0 then modestr_scan (name.take namelen).reverse (name.drop namelen) modestr_init
    else (modestr_init, true)
  let xres :=
    if r.2 = true ∧ r.1.yres_specified = true then some (simple_strtol name % U32) else none
  modestr_apply r.1 xres var

/-! ## Reconfiguration: `hub12fb_set_par` -/

/-- The members of `struct fb_fix_screeninfo` that `hub12fb_set_par` computes.
(`smem_start` and `info->screen_base` hold the address of `par->fb_buffer`.) -/
structure fb_fix_screeninfo where
  smem_len : Nat
  line_length : Nat
  deriving DecidableEq, Repr

/-- The record `struct fb_info` as far as the driver uses it: `var`, `fix` and the
driver data `par`. -/
structure fb_info where
  var : fb_var_screeninfo
  fix : fb_fix_screeninfo
  par : hub12_par
  deriving DecidableEq, Repr

/-- What the allocators do during one call of `hub12fb_allocate_buffers`.

* `fb`: `kzalloc` of the bitmap succeeds;
* `hsync i`: the allocation of scan buffer `i` (`dma_alloc_attrs` or `kmalloc`,
  whichever the DMA mask of the device selects) fails (`none`) or succeeds with
  memory that holds the given bytes. -/
structure alloc_env where
  fb : Bool
  hsync : Nat → Option (List Nat)

/-- A piece of memory of `len` bytes with the contents `bytes` (cut or filled up
with 0 to the length). -/
def alloc_bytes (len : Nat) (bytes : List Nat) : List Nat :=
  (bytes ++ List.replicate len 0).take len

/-- The function `hub12fb_free_buffers`: the engine is stopped, then all five
pointers are released and set to NULL. -/
def hub12fb_free_buffers (par : hub12_par) (env : wait_env) : Option hub12_par :=
  (hub12fb_stop_running par env).bind (fun par1 =>
    some { par1 with
      hsync_buf := (((par1.hsync_buf.set 0 none).set 1 none).set 2 none).set 3 none,
      fb_buffer := none })

/-- The loop of `hub12fb_allocate_buffers` from scan buffer `i` on, for `n` more
buffers: `none` when an allocation fails (`goto cleanup_buffers`). -/
def allocate_hsync (alloc : alloc_env) (len : Nat) :
    Nat → Nat → List (Option (List Nat)) → Option (List (Option (List Nat)))
  | 0, _, bufs => some bufs
  | n + 1, i, bufs =>
    match alloc.hsync i with
    | none => none
    | some bytes => allocate_hsync alloc len n (i + 1) (bufs.set i (some (alloc_bytes len bytes)))

/-- The function `hub12fb_allocate_buffers`: the return value and the state. The
size `bsize` is the `u32` product `(width/8) * height`. -/
def hub12fb_allocate_buffers (par : hub12_par) (alloc : alloc_env) (env : wait_env) :
    Option (Int × hub12_par) :=
  let bsize := (par.pdata.width / 8 * par.pdata.height) % U32
  if alloc.fb = false then some (-ENOMEM, { par with fb_buffer := none })
  else
    let par1 := { par with
      fb_buffer := some (List.replicate bsize 0), hsync_length := bsize / 4 }
    match allocate_hsync alloc par1.hsync_length 4 0 par1.hsync_buf with
    | some bufs => some (0, { par1 with hsync_buf := bufs })
    | none => (hub12fb_free_buffers par1 env).bind (fun par2 => some (-ENOMEM, par2))

/-- The statement `if (par->fb_buffer) hub12fb_free_buffers(par)` of
`hub12fb_set_par`. -/
def clear_old_buffers (par : hub12_par) (env : wait_env) : Option hub12_par :=
  if par.fb_buffer.isSome = true then hub12fb_free_buffers par env else some par

/-- The statement `memcpy(par->fb_buffer, test_pattern_32_16, 64)` of
`hub12fb_set_par`: it fails on a NULL pointer and on a bitmap shorter than the
pattern. -/
def load_test_pattern (par : hub12_par) : Option hub12_par :=
  match par.fb_buffer with
  | some fb =>
    if 64 ≤ fb.length then some { par with fb_buffer := some (test_pattern_32_16 ++ fb.drop 64) }
    else none
  | none => none

/-- The statement `if (width == 32 && height == 16) memcpy(...)` of
`hub12fb_set_par`. -/
def copy_test_pattern (par : hub12_par) : Option hub12_par :=
  if par.pdata.width = 32 ∧ par.pdata.height = 16 then load_test_pattern par else some par

/-- The first half of `hub12fb_set_par`, up to the test of `retval`: the engine is
stopped, the geometry of `var` is stored, the old buffers are released, the new
ones are allocated, and for 32 x 16 pixels the test pattern is copied into the
bitmap, before the return value of the allocation is looked at. The result is
`retval` and the state. -/
def set_par_buffers (info : fb_info) (env : wait_env) (alloc : alloc_env) :
    Option (Int × hub12_par) :=
  (hub12fb_stop_running info.par env).bind (fun par1 =>
    (clear_old_buffers { par1 with
        pdata := { par1.pdata with width := info.var.xres, height := info.var.yres } }
      env).bind (fun par3 =>
      (hub12fb_allocate_buffers par3 alloc env).bind (fun r =>
        (copy_test_pattern r.2).bind (fun par4 => some (r.1, par4)))))

/-- The second half of `hub12fb_set_par`, from "set timings" on: the scan line
period `(NSEC_PER_SEC / refresh) / 4`, the vsync timeout `(2 * HZ) / refresh`, the
LED period, and the start of the engine when the display is not blanked. `none`
stands for a division by 0. -/
def set_par_timing (var : fb_var_screeninfo) (par : hub12_par) (HZ : Nat) :
    Option hub12_par :=
  (hub12fb_refresh_rate var).bind (fun refresh =>
    if refresh = 0 then none
    else
      let par5 := hub12fb_set_brightness { par with
        hsync_period := ((NSEC_PER_SEC / refresh / 4 : Nat) : Int),
        vsync_timeout := ((2 * HZ / refresh : Nat) : Int) }
      if par5.blank = FB_BLANK_UNBLANK then hub12fb_start_running par5 else some par5)

/-- The function `hub12fb_set_par`: the return value and the state. `HZ` is the
number of timer ticks in a second, a constant of the kernel configuration. -/
def hub12fb_set_par (info : fb_info) (HZ : Nat) (env : wait_env) (alloc : alloc_env) :
    Option (Int × fb_info) :=
  (set_par_buffers info env alloc).bind (fun r =>
    if r.1 ≠ 0 then some (r.1, { info with par := r.2 })
    else
      (set_par_timing info.var r.2 HZ).bind (fun par6 =>
        some (0, { info with
          fix := { smem_len := (r.2.pdata.width * r.2.pdata.height) % U32 / 8,
                   line_length := r.2.pdata.width / 8 },
          par := par6 })))

/-- What `hub12fb_probe` puts into `var` before it calls `hub12fb_check_var`: the
geometry of the platform data, the pixel clock for its refresh rate and, with a
`mode` parameter, the fields of the mode string. -/
def probe_var (pdata : hub12fb_platform_data) (mode : Option (List Char)) :
    Option fb_var_screeninfo :=
  let var1 := { var_zeroed with xres := pdata.width, yres := pdata.height }
  (refresh_to_pixclock pdata.refresh var1).bind (fun p =>
    let var2 := { var1 with pixclock := p }
    match mode with
    | some s => hub12fb_modestr_to_var (some s) var2
    | none => some var2)

/-- The allocators succeed; every scan buffer comes with all bytes 0. -/
def alloc_ok : alloc_env := { fb := true, hsync := fun _ => some [] }

/-- The allocation of the bitmap fails. -/
def alloc_fails : alloc_env := { fb := false, hsync := fun _ => some [] }

/-- The `fb_info` of `hub12fb_probe` for `default_platform_data` and no `mode`
parameter, after `hub12fb_check_var`. -/
def info_default : Option fb_info :=
  ((probe_var default_platform_data none).bind hub12fb_check_var).map (fun var =>
    { var := var, fix := { smem_len := 0, line_length := 0 },
      par := par_zeroed default_platform_data })

/-! ## Notions used to state the properties of geometry and timing -/

/-- The number `n` rounded up to the next positive multiple of `size`; 0 is rounded
up to `size`. -/
def module_round (size n : Nat) : Nat := (max n 1 + (size - 1)) / size * size

/-- The `var` that `hub12fb_check_var` returns, given the geometry and the pixel
clock it has settled on: all other members it writes are constants or follow from
the geometry. -/
def check_var_fields (var : fb_var_screeninfo) (xres yres pixclock : Nat) :
    fb_var_screeninfo :=
  { var with
    xres := xres, yres := yres, pixclock := pixclock,
    xres_virtual := xres, yres_virtual := yres,
    xoffset := 0, yoffset := 0,
    height := (yres * 10) % U32, width := (xres * 10) % U32,
    upper_margin := 0, lower_margin := 0, left_margin := 0, right_margin := 0,
    bits_per_pixel := 1, vmode := FB_VMODE_NONINTERLACED,
    red := { offset := 0, length := 1, msb_right := 0 },
    green := { offset := 0, length := 1, msb_right := 0 },
    blue := { offset := 0, length := 1, msb_right := 0 },
    transp := { offset := 0, length := 0, msb_right := 0 } }

/-- The `fb_info` of a first configuration: the driver data zeroed, as
`hub12fb_probe` leaves it, and the given `var`. -/
def info_of_var (var : fb_var_screeninfo) : fb_info :=
  { var := var, fix := { smem_len := 0, line_length := 0 },
    par := par_zeroed default_platform_data }

/-- The `var` of `hub12fb_probe` for `default_platform_data` after
`hub12fb_check_var`: 32 x 16 pixels, the pixel clock of 60 Hz. -/
def var_32_16 : fb_var_screeninfo :=
  check_var_fields { var_zeroed with xres := 32, yres := 16 } 32 16 32552000

/-- The members of the state that only a reconfiguration writes: platform data,
bitmap, buffer length, the three timing parameters and the blank mode. -/
def same_setup (p q : hub12_par) : Prop :=
  q.pdata = p.pdata ∧ q.fb_buffer = p.fb_buffer ∧ q.hsync_length = p.hsync_length ∧
  q.hsync_period = p.hsync_period ∧ q.ledon_period = p.ledon_period ∧
  q.vsync_timeout = p.vsync_timeout ∧ q.blank = p.blank

/-- A state that has never been configured: stopped, with no buffer. -/
def par_fresh (par : hub12_par) : Prop :=
  par.running = false ∧ par.fb_buffer = none ∧ par.hsync_buf = [none, none, none, none]

/-- A `var` for 64 x 16 pixels at 60 Hz, as `hub12fb_check_var` returns it. -/
def var_64_16 : fb_var_screeninfo :=
  check_var_fields { var_zeroed with xres := 64, yres := 16 } 64 16 16276000

/-- The device after `hub12fb_probe` has configured it for `default_platform_data`
(32 x 16 pixels, engine running), at the moment the frame buffer core asks for
64 x 16 pixels: `var` holds the new geometry, `fix` and `par` the old one. -/
def info_reconfigure : Option fb_info :=
  (hub12fb_set_par (info_of_var var_32_16) 100 env_timeout alloc_ok).map (fun r =>
    { r.2 with var := var_64_16 })

/-- A running 32 x 16 engine that is asked for 64 x 16 pixels. -/
def info_running : fb_info :=
  { var := var_64_16, fix := { smem_len := 64, line_length := 4 },
    par := { par_32_16 with running := true } }

/-- The reconfiguration of `info_reconfigure` when the allocation of the bitmap
fails: the `fb_info` before the call, the return value and the `fb_info` after. -/
def reconfigure_fails : Option (fb_info × Int × fb_info) :=
  info_reconfigure.bind (fun info =>
    (hub12fb_set_par info 100 env_timeout alloc_fails).map (fun r => (info, r.1, r.2)))

/-- Every character of the string is a decimal digit. -/
def all_digits (s : List Char) : Prop := ∀ c ∈ s, is_digit c

instance (s : List Char) : Decidable (all_digits s) :=
  inferInstanceAs (Decidable (∀ c ∈ s, is_digit c))

/-- The character `c` ends the loop of `hub12fb_modestr_to_var` by `goto done` when
the variables are in state `st`: an `'@'` after a field has been parsed, an `'x'`
after `yres` has been parsed, or a character that is no digit, `'x'` or `'@'`. -/
def scan_stops (c : Char) (st : modestr_state) : Prop :=
  (c = '@' ∧ (st.refresh_specified = true ∨ st.yres_specified = true)) ∨
  (c = 'x' ∧ st.yres_specified = true) ∨
  (c ≠ '@' ∧ c ≠ 'x' ∧ ¬ is_digit c)

instance (c : Char) (st : modestr_state) : Decidable (scan_stops c st) := by
  unfold scan_stops; infer_instance

/-- The `var` that `hub12fb_probe` hands to `hub12fb_modestr_to_var` for
`default_platform_data`: 32 x 16 pixels and the pixel clock of 60 Hz. -/
def var_probe : fb_var_screeninfo :=
  { var_zeroed with xres := 32, yres := 16, pixclock := 32552000 }

/-- The scan line period that `hub12fb_set_par` stores for the refresh rate
`refresh`, the value `ns_to_ktime((NSEC_PER_SEC / refresh) / 4)` of its only
assignment to `par->hsync_period`. -/
def stored_period (refresh : Nat) : Int := ((NSEC_PER_SEC / refresh / 4 : Nat) : Int)

/-! ## Loops over a `u16` counter -/

theorem for_u16_invariant {σ : Type} (Inv : Nat → σ → Prop) (bound : Nat)
    (body : Nat → σ → Option σ) (hb : bound ≤ 65535)
    (hstep : ∀ c s, c < bound → Inv c s → ∃ s', body c s = some s' ∧ Inv (c + 1) s') :
    ∀ (fuel c : Nat) (s : σ), c ≤ bound → bound - c < fuel → Inv c s →
      ∃ s', for_u16 bound body fuel c s = some s' ∧ Inv bound s' := by
  intro fuel
  induction fuel with
  | zero => intro c s _ h _; omega
  | succ fuel ih =>
    intro c s hc hf hinv
    by_cases hlt : c < bound
    · obtain ⟨s1, hs1, hinv1⟩ := hstep c s hlt hinv
      have hmod : (c + 1) % 65536 = c + 1 := Nat.mod_eq_of_lt (by omega)
      obtain ⟨s2, hs2, hinv2⟩ := ih (c + 1) s1 (by omega) (by omega) hinv1
      refine ⟨s2, ?_, hinv2⟩
      simp only [for_u16, hlt, if_true, hs1, Option.some_bind, hmod, hs2]
    · have hceq : c = bound := by omega
      subst hceq
      exact ⟨s, by simp [for_u16], hinv⟩

/-- A loop that starts at 0 with a bound a `u16` can reach returns within the fuel
`u16_fuel`, and its invariant holds at the bound. -/
theorem for_u16_from_zero {σ : Type} (Inv : Nat → σ → Prop) (bound : Nat)
    (body : Nat → σ → Option σ) (hb : bound ≤ 65535)
    (hstep : ∀ c s, c < bound → Inv c s → ∃ s', body c s = some s' ∧ Inv (c + 1) s')
    (s : σ) (h0 : Inv 0 s) :
    ∃ s', for_u16 bound body u16_fuel 0 s = some s' ∧ Inv bound s' :=
  for_u16_invariant Inv bound body hb hstep u16_fuel 0 s (Nat.zero_le _)
    (by unfold u16_fuel; omega) h0

/-- A loop whose bound a `u16` counter cannot reach never leaves. -/
theorem for_u16_diverges {σ : Type} (bound : Nat) (body : Nat → σ → Option σ)
    (hb : 65536 ≤ bound) :
    ∀ (fuel c : Nat) (s : σ), c < 65536 → for_u16 bound body fuel c s = none := by
  intro fuel
  induction fuel with
  | zero => intro c s _; rfl
  | succ fuel ih =>
    intro c s hc
    have hlt : c < bound := by omega
    simp only [for_u16, hlt, if_true]
    cases hbody : body c s with
    | none => rfl
    | some s1 =>
      simp only [Option.some_bind]
      exact ih _ s1 (Nat.mod_lt _ (by norm_num))

/-! ## The frame converter on a well-formed state -/

theorem src_index_eq (rowbytes i j k l : Nat) (hk : k < rowbytes) (hl : l < 4) :
    src_index rowbytes i ((j * rowbytes + k) * 4 + l) = (j * 16 + l * 4 + i) * rowbytes + k := by
  have hpos : 0 < rowbytes := by omega
  have h4 : ((j * rowbytes + k) * 4 + l) / 4 = j * rowbytes + k := by omega
  have hm4 : ((j * rowbytes + k) * 4 + l) % 4 = l := by omega
  have hdiv : (j * rowbytes + k) / rowbytes = j := by
    rw [Nat.mul_comm j rowbytes, Nat.mul_add_div hpos, Nat.div_eq_of_lt hk, Nat.add_zero]
  have hmod : (j * rowbytes + k) % rowbytes = k := by
    rw [Nat.mul_comm j rowbytes, Nat.mul_add_mod, Nat.mod_eq_of_lt hk]
  unfold src_index
  rw [h4, hm4, hdiv, hmod]

/-- The bitmap index read for row `j*16 + l*4 + i`, column `k` lies inside a bitmap
of `rowbytes*height` bytes. -/
theorem src_in_bitmap (rowbytes height i j k l : Nat) (hi : i < 4) (hj : j < height / 16)
    (hk : k < rowbytes) (hl : l < 4) :
    (j * 16 + l * 4 + i) * rowbytes + k < rowbytes * height := by
  have hrow : j * 16 + l * 4 + i + 1 ≤ height := by omega
  have h1 : (j * 16 + l * 4 + i + 1) * rowbytes ≤ height * rowbytes :=
    Nat.mul_le_mul_right _ hrow
  have h2 : (j * 16 + l * 4 + i + 1) * rowbytes = (j * 16 + l * 4 + i) * rowbytes + rowbytes := by
    ring
  have h3 : height * rowbytes = rowbytes * height := Nat.mul_comm _ _
  omega

/-- The offset written for `(j, k, l)` lies inside the bytes of one scan line. -/
theorem dst_in_scanline (rowbytes height j k l : Nat) (hj : j < height / 16)
    (hk : k < rowbytes) (hl : l < 4) :
    (j * rowbytes + k) * 4 + l < height / 16 * rowbytes * 4 := by
  have h1 : (j + 1) * rowbytes ≤ height / 16 * rowbytes := Nat.mul_le_mul_right _ (by omega)
  have h2 : (j + 1) * rowbytes = j * rowbytes + rowbytes := by ring
  omega

/-- One scan line of a `rowbytes * height` bitmap fits a buffer of a quarter of
its size. -/
theorem scanline_fits (rowbytes height : Nat) :
    height / 16 * rowbytes * 4 ≤ rowbytes * height / 4 := by
  rw [Nat.le_div_iff_mul_le (by norm_num)]
  have h1 : height / 16 * 16 ≤ height := Nat.div_mul_le_self _ _
  have h2 : rowbytes * (height / 16 * 16) ≤ rowbytes * height := Nat.mul_le_mul_left _ h1
  have h3 : height / 16 * rowbytes * 4 * 4 = rowbytes * (height / 16 * 16) := by ring
  omega

/-- When the height is a multiple of 16, one scan line is exactly a quarter of the bitmap. -/
theorem scanline_exact (rowbytes height : Nat) (h16 : 16 ∣ height) :
    height / 16 * rowbytes * 4 = rowbytes * height / 4 := by
  obtain ⟨q, rfl⟩ := h16
  have h1 : 16 * q / 16 = q := by omega
  have h2 : rowbytes * (16 * q) = (q * rowbytes * 4) * 4 := by ring
  rw [h1, h2, Nat.mul_div_cancel _ (by norm_num : 0 < 4)]

/-- One store of `do_vsync` succeeds inside the loops and extends the layout by
one byte. -/
theorem do_vsync_store_inv (fb b0 : List Nat) (rowbytes height i j k l : Nat)
    (hi : i < 4) (hj : j < height / 16) (hk : k < rowbytes) (hl : l < 4)
    (hfb : rowbytes * height ≤ fb.length) (h31 : rowbytes * height ≤ 2 ^ 31)
    (hb0 : height / 16 * rowbytes * 4 ≤ b0.length) (lb : lb_cursor)
    (hinv : scan_inv fb b0 rowbytes i ((j * rowbytes + k) * 4 + l) lb) :
    ∃ lb', do_vsync_store (some fb) rowbytes i j k l lb = some lb' ∧
      scan_inv fb b0 rowbytes i ((j * rowbytes + k) * 4 + (l + 1)) lb' := by
  obtain ⟨hpos, b, hbuf, hlen, hlow, hhigh⟩ := hinv
  have hsrc := src_in_bitmap rowbytes height i j k l hi hj hk hl
  have hdst := dst_in_scanline rowbytes height j k l hj hk hl
  have hidx : (j * 16 + l * 4 + i) * rowbytes + k < fb.length := by omega
  have hget : fb.get? ((j * 16 + l * 4 + i) * rowbytes + k)
      = some (fb[(j * 16 + l * 4 + i) * rowbytes + k]) := by
    rw [List.get?_eq_getElem?, List.getElem?_eq_getElem hidx]
  have hposlt : lb.pos < b.length := by omega
  refine ⟨{ buf := some (b.set lb.pos (fb[(j * 16 + l * 4 + i) * rowbytes + k])),
            pos := lb.pos + 1 }, ?_, ?_⟩
  · have h31k : (j * 16 + l * 4 + i) * rowbytes + k < 2 ^ 31 := by omega
    simp only [do_vsync_store, h31k, if_true, Option.some_bind, hget, hbuf, hposlt]
  · refine ⟨by simp only [hpos]; omega, b.set lb.pos _, rfl, ?_, ?_, ?_⟩
    · rw [List.length_set, hlen]
    · intro m hm
      by_cases hmn : m = (j * rowbytes + k) * 4 + l
      · subst hmn
        rw [hpos, List.getElem?_set_self (by omega), src_index_eq rowbytes i j k l hk hl,
          List.getElem?_eq_getElem hidx]
      · rw [hpos, List.getElem?_set_ne (by omega)]
        exact hlow m (by omega)
    · intro m hm
      rw [hpos, List.getElem?_set_ne (by omega)]
      exact hhigh m (by omega)

/-- The three inner loops of `do_vsync` return and fill the first
`height/16 * rowbytes * 4` bytes of the scan buffer with its scan line. -/
theorem do_vsync_scanline_inv (fb b0 : List Nat) (rowbytes height i : Nat)
    (hi : i < 4) (hrb : rowbytes ≤ 65535) (hh : height / 16 ≤ 65535)
    (hfb : rowbytes * height ≤ fb.length) (h31 : rowbytes * height ≤ 2 ^ 31)
    (hb0 : height / 16 * rowbytes * 4 ≤ b0.length) :
    ∃ lb', do_vsync_scanline (some fb) height rowbytes i { buf := some b0, pos := 0 } = some lb' ∧
      scan_inv fb b0 rowbytes i (height / 16 * rowbytes * 4) lb' := by
  unfold do_vsync_scanline
  have hloop := for_u16_from_zero
    (fun j lb => scan_inv fb b0 rowbytes i (j * rowbytes * 4) lb) (height / 16)
    (fun j lb => for_u16 rowbytes
      (fun k lb => for_u16 4
        (fun l lb => do_vsync_store (some fb) rowbytes i j k l lb) u16_fuel 0 lb)
      u16_fuel 0 lb) hh ?_ { buf := some b0, pos := 0 } ?_
  · exact hloop
  · intro j lb hj hinv
    have hk := for_u16_from_zero
      (fun k lb => scan_inv fb b0 rowbytes i ((j * rowbytes + k) * 4) lb) rowbytes
      (fun k lb => for_u16 4
        (fun l lb => do_vsync_store (some fb) rowbytes i j k l lb) u16_fuel 0 lb)
      hrb ?_ lb (by simpa using hinv)
    · obtain ⟨lb1, h1, hinv1⟩ := hk
      refine ⟨lb1, h1, ?_⟩
      have he : (j + 1) * rowbytes * 4 = (j * rowbytes + rowbytes) * 4 := by ring
      show scan_inv fb b0 rowbytes i ((j + 1) * rowbytes * 4) lb1
      rw [he]; exact hinv1
    · intro k lb2 hk2 hinv2
      have hl := for_u16_from_zero
        (fun l lb => scan_inv fb b0 rowbytes i ((j * rowbytes + k) * 4 + l) lb) 4
        (fun l lb => do_vsync_store (some fb) rowbytes i j k l lb) (by norm_num)
        (fun l lb3 hl3 hinv3 =>
          do_vsync_store_inv fb b0 rowbytes height i j k l hi hj hk2 hl3 hfb h31 hb0 lb3 hinv3)
        lb2 (by simpa using hinv2)
      obtain ⟨lb4, h4, hinv4⟩ := hl
      refine ⟨lb4, h4, ?_⟩
      have he : (j * rowbytes + (k + 1)) * 4 = (j * rowbytes + k) * 4 + 4 := by ring
      show scan_inv fb b0 rowbytes i ((j * rowbytes + (k + 1)) * 4) lb4
      rw [he]; exact hinv4
  · refine ⟨by simp, b0, rfl, rfl, ?_, ?_⟩
    · intro m hm; simp at hm
    · intro m _; rfl

/-- One turn of the outer loop of `do_vsync` fills scan buffer `i` and leaves the
others as they are. -/
theorem do_vsync_body_inv (fb : List Nat) (bufs0 : List (Option (List Nat)))
    (rowbytes height i : Nat) (hi : i < 4) (hrb : rowbytes ≤ 65535) (hh : height / 16 ≤ 65535)
    (hfb : rowbytes * height ≤ fb.length) (h31 : rowbytes * height ≤ 2 ^ 31)
    (hlen : bufs0.length = 4)
    (hbufs : ∀ n, n < 4 → ∃ b0, bufs0[n]? = some (some b0) ∧
      height / 16 * rowbytes * 4 ≤ b0.length)
    (bufs : List (Option (List Nat))) (hinv : vsync_inv fb bufs0 rowbytes height i bufs) :
    ∃ bufs', do_vsync_body (some fb) height rowbytes i bufs = some bufs' ∧
      vsync_inv fb bufs0 rowbytes height (i + 1) bufs' := by
  obtain ⟨hl, hdone, hrest⟩ := hinv
  obtain ⟨b0, hb0, hb0len⟩ := hbufs i hi
  have hcur : bufs.get? i = some (some b0) := by
    rw [List.get?_eq_getElem?, hrest i (Nat.le_refl _), hb0]
  obtain ⟨lb, hlb, hpos, b, hbuf, hblen, hlow, hhigh⟩ :=
    do_vsync_scanline_inv fb b0 rowbytes height i hi hrb hh hfb h31 hb0len
  refine ⟨bufs.set i (some b), ?_, ?_, ?_, ?_⟩
  · simp only [do_vsync_body, hcur, Option.some_bind, hlb, hbuf]
  · rw [List.length_set, hl]
  · intro n hn
    by_cases hni : n = i
    · subst hni
      refine ⟨b0, b, hb0, ?_, hblen, hlow, hhigh⟩
      rw [List.getElem?_set_self (by omega)]
    · obtain ⟨c0, c, hc0, hc, hlay⟩ := hdone n (by omega)
      refine ⟨c0, c, hc0, ?_, hlay⟩
      rw [List.getElem?_set_ne (by omega)]
      exact hc
  · intro n hn
    rw [List.getElem?_set_ne (by omega)]
    exact hrest n (by omega)

/-- The outer loop of `do_vsync` fills all four scan buffers. -/
theorem do_vsync_loop_spec (fb : List Nat) (bufs0 : List (Option (List Nat)))
    (rowbytes height : Nat) (hrb : rowbytes ≤ 65535) (hh : height / 16 ≤ 65535)
    (hfb : rowbytes * height ≤ fb.length) (h31 : rowbytes * height ≤ 2 ^ 31)
    (hlen : bufs0.length = 4)
    (hbufs : ∀ n, n < 4 → ∃ b0, bufs0[n]? = some (some b0) ∧
      height / 16 * rowbytes * 4 ≤ b0.length) :
    ∃ bufs, for_u16 4 (do_vsync_body (some fb) height rowbytes) u16_fuel 0 bufs0 = some bufs ∧
      vsync_inv fb bufs0 rowbytes height 4 bufs := by
  refine for_u16_from_zero (fun i bufs => vsync_inv fb bufs0 rowbytes height i bufs) 4
    (do_vsync_body (some fb) height rowbytes) (by norm_num) ?_ bufs0 ?_
  · intro i bufs hi hinv
    exact do_vsync_body_inv fb bufs0 rowbytes height i hi hrb hh hfb h31 hlen hbufs bufs hinv
  · refine ⟨rfl, ?_, ?_⟩
    · intro n hn; omega
    · intro n _; rfl

/-- In an allocated state the bitmap exists and has `(width/8) * height` bytes. -/
theorem allocated_fb (par : hub12_par) (h : allocated par) :
    ∃ fb, par.fb_buffer = some fb ∧ fb.length = par.pdata.width / 8 * par.pdata.height := by
  obtain ⟨h1, _, _⟩ := h
  cases hfb : par.fb_buffer with
  | none => rw [hfb] at h1; simp at h1
  | some fb => rw [hfb] at h1; exact ⟨fb, rfl, by simpa using h1⟩

/-- In an allocated state the four scan buffers exist and have `hsync_length`
bytes each. -/
theorem allocated_bufs (par : hub12_par) (h : allocated par) :
    par.hsync_buf.length = 4 ∧
    ∀ n, n < 4 → ∃ b0, par.hsync_buf[n]? = some (some b0) ∧ b0.length = par.hsync_length := by
  obtain ⟨_, _, h3⟩ := h
  have hlen : par.hsync_buf.length = 4 := by
    have := congrArg List.length h3
    simpa using this
  refine ⟨hlen, ?_⟩
  intro n hn
  have hget := congrArg (fun l => l[n]?) h3
  simp only [List.getElem?_map, List.getElem?_replicate, hn, if_true] at hget
  cases hb : par.hsync_buf[n]? with
  | none => rw [hb] at hget; simp at hget
  | some p =>
    rw [hb] at hget
    cases p with
    | none => simp at hget
    | some b0 => exact ⟨b0, rfl, by simpa using hget⟩

/-- Four existing scan buffers of `len` bytes each are what `allocated` asks for. -/
theorem allocated_of_bufs (bufs : List (Option (List Nat))) (len : Nat)
    (hlen : bufs.length = 4)
    (hall : ∀ n, n < 4 → ∃ b, bufs[n]? = some (some b) ∧ b.length = len) :
    bufs.map (Option.map List.length) = List.replicate 4 (some len) := by
  apply List.ext_getElem?
  intro n
  rw [List.getElem?_map, List.getElem?_replicate]
  by_cases hn : n < 4
  · obtain ⟨b, hb, hbl⟩ := hall n hn
    simp [hb, hbl, hn]
  · have : bufs[n]? = none := List.getElem?_eq_none (by omega)
    simp [this, hn]

/-- On a well-formed state `do_vsync` returns: it changes `hsync_buf`, `i_scan`,
`vsync_flag` and the trace only, and every scan buffer holds its scan line. -/
theorem do_vsync_ok (par : hub12_par) (h : par_ok par) :
    ∃ fb bufs, par.fb_buffer = some fb ∧
      do_vsync par = some { par with
        hsync_buf := bufs, i_scan := 0, vsync_flag := true,
        trace := par.trace ++ [hw_event.do_vsync] } ∧
      bufs.map (Option.map List.length) = List.replicate 4 (some par.hsync_length) ∧
      ∀ n, n < 4 → ∃ b0 b, par.hsync_buf[n]? = some (some b0) ∧ bufs[n]? = some (some b) ∧
        scan_layout fb b0 b (par.pdata.width / 8) par.pdata.height n := by
  obtain ⟨halloc, hrb, hh, h31⟩ := h
  obtain ⟨fb, hfb, hfblen⟩ := allocated_fb par halloc
  obtain ⟨hlen, hbufs⟩ := allocated_bufs par halloc
  have hL : par.hsync_length = par.pdata.width / 8 * par.pdata.height / 4 := halloc.2.1
  have hfit := scanline_fits (par.pdata.width / 8) par.pdata.height
  have hbufs2 : ∀ n, n < 4 → ∃ b0, par.hsync_buf[n]? = some (some b0) ∧
      par.pdata.height / 16 * (par.pdata.width / 8) * 4 ≤ b0.length := by
    intro n hn
    obtain ⟨b0, hb0, hb0l⟩ := hbufs n hn
    exact ⟨b0, hb0, by omega⟩
  obtain ⟨bufs, hloop, hl4, hdone, _⟩ :=
    do_vsync_loop_spec fb par.hsync_buf (par.pdata.width / 8) par.pdata.height hrb hh
      (by omega) h31 hlen hbufs2
  have hmod : par.pdata.width / 8 % 65536 = par.pdata.width / 8 := Nat.mod_eq_of_lt (by omega)
  refine ⟨fb, bufs, hfb, ?_, ?_, ?_⟩
  · simp only [do_vsync, hmod, hfb, hloop, Option.some_bind]
  · apply allocated_of_bufs bufs par.hsync_length (by omega)
    intro n hn
    obtain ⟨b0, b, hb0, hb, hlay⟩ := hdone n hn
    obtain ⟨c0, hc0, hc0l⟩ := hbufs n hn
    rw [hb0] at hc0
    have hbc : b0 = c0 := by simpa using hc0
    exact ⟨b, hb, by rw [hlay.1, hbc, hc0l]⟩
  · intro n hn
    exact hdone n hn

/-- The frame converter keeps a well-formed state well-formed. -/
theorem do_vsync_par_ok (par par1 : hub12_par) (h : par_ok par)
    (hv : do_vsync par = some par1) : par_ok par1 := by
  obtain ⟨fb, bufs, hfb, hdo, hal, _⟩ := do_vsync_ok par h
  rw [hdo] at hv
  have hp : par1 = { par with
      hsync_buf := bufs, i_scan := 0, vsync_flag := true,
      trace := par.trace ++ [hw_event.do_vsync] } := by
    injection hv with hv; exact hv.symm
  subst hp
  obtain ⟨⟨h1, h2, _⟩, hr⟩ := h
  exact ⟨⟨h1, h2, hal⟩, hr⟩

/-! ## The completion handler and the transfer request -/

theorem completion_calls_no_vsync (par : hub12_par) (a b : Int) :
    (completion_calls par a b).count hw_event.do_vsync = 0 := by
  by_cases hc : par.blank = FB_BLANK_UNBLANK ∧ par.running = true <;>
    simp [completion_calls, hc, List.count_cons]

/-- A completion that does not end the frame: the calls are made, `i_scan` advances
and `hsync_running` is cleared; nothing else changes. -/
theorem completion_step (par : hub12_par) (a b : Int)
    (ha : index_int avals par.i_scan = some a) (hb : index_int bvals par.i_scan = some b)
    (h4 : par.i_scan + 1 ≠ 4) :
    shift_scanline_completion par = some { par with
      trace := par.trace ++ completion_calls par a b,
      i_scan := par.i_scan + 1, hsync_running := false } := by
  by_cases hc : par.blank = FB_BLANK_UNBLANK ∧ par.running = true <;>
    simp [shift_scanline_completion, completion_calls, hc, ha, hb, h4]

/-- The completion that ends the frame runs `do_vsync` on the state with the calls
made and `i_scan = 4`, then clears `hsync_running`. -/
theorem completion_wrap (par : hub12_par) (h3 : par.i_scan = 3) :
    shift_scanline_completion par =
      (do_vsync { par with
        trace := par.trace ++ completion_calls par 1 1, i_scan := 4 }).bind
        (fun par2 => some { par2 with hsync_running := false }) := by
  by_cases hc : par.blank = FB_BLANK_UNBLANK ∧ par.running = true <;>
    simp [shift_scanline_completion, completion_calls, hc, h3, index_int, avals, bvals]

/-- On a well-formed state the completion that ends the frame returns. -/
theorem completion_wrap_ok (par : hub12_par) (h3 : par.i_scan = 3) (hok : par_ok par) :
    ∃ bufs, shift_scanline_completion par = some { par with
        hsync_buf := bufs, i_scan := 0, vsync_flag := true, hsync_running := false,
        trace := par.trace ++ completion_calls par 1 1 ++ [hw_event.do_vsync] } ∧
      bufs.map (Option.map List.length) = List.replicate 4 (some par.hsync_length) := by
  have hok1 : par_ok { par with
      trace := par.trace ++ completion_calls par 1 1, i_scan := 4 } := hok
  obtain ⟨fb, bufs, _, hdo, hal, _⟩ := do_vsync_ok _ hok1
  refine ⟨bufs, ?_, hal⟩
  rw [completion_wrap par h3, hdo]
  rfl

/-- The frame converter leaves `i_scan = 0`. -/
theorem do_vsync_i_scan (par par1 : hub12_par) (h : do_vsync par = some par1) :
    par1.i_scan = 0 := by
  unfold do_vsync at h
  obtain ⟨bufs, _, h⟩ := Option.bind_eq_some.mp h
  simp only [Option.some.injEq] at h
  rw [← h]

/-- The four values of a scan index in range. -/
theorem i_scan_cases (par : hub12_par) (h : i_scan_ok par) :
    par.i_scan = 0 ∨ par.i_scan = 1 ∨ par.i_scan = 2 ∨ par.i_scan = 3 := by
  obtain ⟨h0, h4⟩ := h
  omega

/-- The row-select tables are read inside their four entries. -/
theorem row_select_lookup (par : hub12_par) (h : i_scan_ok par) :
    index_int avals par.i_scan = some (par.i_scan / 2) ∧
    index_int bvals par.i_scan = some (par.i_scan % 2) := by
  rcases i_scan_cases par h with h | h | h | h <;> rw [h] <;> exact ⟨rfl, rfl⟩

/-- The completion handler keeps the scan index in range. -/
theorem completion_i_scan_ok (par par1 : hub12_par) (h : i_scan_ok par)
    (hc : shift_scanline_completion par = some par1) : i_scan_ok par1 := by
  obtain ⟨ha, hb⟩ := row_select_lookup par h
  by_cases h3 : par.i_scan = 3
  · rw [completion_wrap par h3] at hc
    obtain ⟨par2, hv, hc⟩ := Option.bind_eq_some.mp hc
    simp only [Option.some.injEq] at hc
    have h0 := do_vsync_i_scan _ _ hv
    rw [← hc]
    exact ⟨by simp [h0], by simp [h0]⟩
  · have h4 : par.i_scan + 1 ≠ 4 := by omega
    rw [completion_step par _ _ ha hb h4] at hc
    simp only [Option.some.injEq] at hc
    rw [← hc]
    obtain ⟨h0, h4⟩ := h
    exact ⟨by show 0 ≤ par.i_scan + 1; omega, by show par.i_scan + 1 < 4; omega⟩

/-- The transfer request does not change the scan index. -/
theorem start_i_scan_ok (par par1 : hub12_par)
    (hc : shift_scanline_start par = some par1) : par1.i_scan = par.i_scan := by
  unfold shift_scanline_start at hc
  by_cases hr : par.hsync_running = true
  · rw [if_pos hr] at hc
    simp only [Option.some.injEq] at hc
    rw [← hc]
  · rw [if_neg hr] at hc
    obtain ⟨p, _, hc⟩ := Option.bind_eq_some.mp hc
    simp only [Option.some.injEq] at hc
    rw [← hc]

/-- The wait for vsync keeps the scan index in range, whatever happens during
the sleep. -/
theorem wait_i_scan_ok (par : hub12_par) (env : wait_env) (r : Int × hub12_par)
    (h : i_scan_ok par) (hw : wait_for_vsync par env = some r) : i_scan_ok r.2 := by
  unfold wait_for_vsync at hw
  obtain ⟨par2, h2, hw⟩ := Option.bind_eq_some.mp hw
  have hok2 : i_scan_ok par2 := by
    by_cases hc : par.hsync_running = true ∧ env.spi_completes = true
    · rw [if_pos hc] at h2
      exact completion_i_scan_ok { par with vsync_flag := false } par2 h h2
    · rw [if_neg hc] at h2
      simp only [Option.some.injEq] at h2
      rw [← h2]; exact h
  split at hw
  · simp only [Option.some.injEq] at hw; rw [← hw]; exact hok2
  · split at hw <;> (simp only [Option.some.injEq] at hw; rw [← hw]; exact hok2)

/-- Every operation of the engine keeps the scan index in range. -/
theorem engine_step_i_scan_ok (op : engine_op) (par par1 : hub12_par) (h : i_scan_ok par)
    (hs : engine_step op par = some par1) : i_scan_ok par1 := by
  cases op with
  | start =>
    simp only [engine_step, hub12fb_start_running] at hs
    by_cases hr : par.running = true
    · rw [if_pos hr] at hs
      simp only [Option.some.injEq] at hs
      rw [← hs]; exact h
    · rw [if_neg hr] at hs
      obtain ⟨par2, hv, hs⟩ := Option.bind_eq_some.mp hs
      simp only [Option.some.injEq] at hs
      have h0 := do_vsync_i_scan _ _ hv
      rw [← hs]
      exact ⟨by simp [setup_hsync, h0], by simp [setup_hsync, h0]⟩
  | stop env =>
    simp only [engine_step, hub12fb_stop_running] at hs
    by_cases hr : par.running = true
    · rw [if_pos hr] at hs
      obtain ⟨r, hw, hs⟩ := Option.bind_eq_some.mp hs
      simp only [Option.some.injEq] at hs
      rw [← hs]
      exact wait_i_scan_ok { par with
        running := false,
        trace := par.trace ++
          [hw_event.hrtimer_cancel timer_id.hsync_timer,
           hw_event.hrtimer_cancel timer_id.ledon_timer] } env r h hw
    · rw [if_neg hr] at hs
      simp only [Option.some.injEq] at hs
      rw [← hs]; exact h
  | tick =>
    simp only [engine_step, do_hsync] at hs
    obtain ⟨r, hd, hs⟩ := Option.map_eq_some'.mp hs
    by_cases hr : par.running = false
    · rw [if_pos hr] at hd
      simp only [Option.some.injEq] at hd
      rw [← hs, ← hd]; exact h
    · rw [if_neg hr] at hd
      obtain ⟨par2, hq, hd⟩ := Option.bind_eq_some.mp hd
      simp only [Option.some.injEq] at hd
      have h2 := start_i_scan_ok _ par2 hq
      rw [← hs, ← hd]
      exact ⟨by rw [h2]; exact h.1, by rw [h2]; exact h.2⟩
  | request =>
    simp only [engine_step] at hs
    have h2 := start_i_scan_ok _ par1 hs
    exact ⟨by rw [h2]; exact h.1, by rw [h2]; exact h.2⟩
  | completion => exact completion_i_scan_ok par par1 h hs
  | convert =>
    have h0 := do_vsync_i_scan _ _ hs
    exact ⟨by rw [h0], by rw [h0]; norm_num⟩

/-- On a well-formed state the completion handler returns; the new state is
well-formed, the calls are those of `completion_calls`, followed by a run of
`do_vsync` exactly when the fourth scan line was shifted out. -/
theorem completion_ok (par : hub12_par) (hok : par_ok par) (hi : i_scan_ok par) :
    ∃ par1, shift_scanline_completion par = some par1 ∧ par_ok par1 ∧
      par1.hsync_running = false ∧ par1.running = par.running ∧
      par1.i_scan = (par.i_scan + 1) % 4 ∧
      par1.trace = par.trace ++ completion_calls par (par.i_scan / 2) (par.i_scan % 2) ++
        (if par.i_scan = 3 then [hw_event.do_vsync] else []) := by
  obtain ⟨ha, hb⟩ := row_select_lookup par hi
  by_cases h3 : par.i_scan = 3
  · obtain ⟨bufs, hc, hal⟩ := completion_wrap_ok par h3 hok
    obtain ⟨⟨h1, h2, _⟩, hr⟩ := hok
    refine ⟨_, hc, ⟨⟨h1, h2, hal⟩, hr⟩, rfl, rfl, ?_, ?_⟩
    · simp [h3]
    · simp [h3]
  · have h4 : par.i_scan + 1 ≠ 4 := by omega
    refine ⟨_, completion_step par _ _ ha hb h4, hok, rfl, rfl, ?_, ?_⟩
    · obtain ⟨h0, h4⟩ := hi
      show par.i_scan + 1 = (par.i_scan + 1) % 4
      omega
    · simp [h3]

/-- In an allocated state the scan buffer selected by `i_scan` exists. -/
theorem hsync_buf_lookup (par : hub12_par) (hal : allocated par) (hi : i_scan_ok par) :
    ∃ b, index_int par.hsync_buf par.i_scan = some (some b) ∧ b.length = par.hsync_length := by
  obtain ⟨_, hbufs⟩ := allocated_bufs par hal
  obtain ⟨h0, h4⟩ := hi
  obtain ⟨b, hb, hbl⟩ := hbufs par.i_scan.toNat (by omega)
  refine ⟨b, ?_, hbl⟩
  unfold index_int
  rw [if_pos h0, List.get?_eq_getElem?, hb]

/-- The transfer request on an allocated state that is not in flight. -/
theorem request_idle (par : hub12_par) (hal : allocated par) (hi : i_scan_ok par)
    (hr : par.hsync_running = false) :
    shift_scanline_start par = some { par with
      hsync_running := true, transfer_tx_buf := some par.i_scan.toNat,
      trace := par.trace ++
        [hw_event.spi_async_locked (some par.i_scan.toNat) par.transfer_len] } := by
  obtain ⟨b, hb, _⟩ := hsync_buf_lookup par hal hi
  simp [shift_scanline_start, hr, hb]

/-- The transfer request while a transfer is in flight. -/
theorem request_in_flight (par : hub12_par) (hr : par.hsync_running = true) :
    shift_scanline_start par = some par := by
  simp [shift_scanline_start, hr]

/-- On a well-formed state the transfer request returns. -/
theorem request_ok (par : hub12_par) (hok : par_ok par) (hi : i_scan_ok par) :
    ∃ par1, shift_scanline_start par = some par1 ∧ par_ok par1 := by
  by_cases hr : par.hsync_running = true
  · exact ⟨par, request_in_flight par hr, hok⟩
  · have hr2 : par.hsync_running = false := by simpa using hr
    exact ⟨_, request_idle par hok.1 hi hr2, hok⟩

/-- On a well-formed state the wait for vsync returns, whatever happens during
the sleep. -/
theorem wait_ok (par : hub12_par) (env : wait_env) (hok : par_ok par) (hi : i_scan_ok par) :
    ∃ r, wait_for_vsync par env = some r ∧ par_ok r.2 := by
  simp only [wait_for_vsync]
  by_cases hc : par.hsync_running = true ∧ env.spi_completes = true
  · obtain ⟨par1, h1, hok1, _⟩ :=
      completion_ok { par with vsync_flag := false } hok hi
    rw [if_pos hc, h1]
    simp only [Option.some_bind]
    split
    · exact ⟨_, rfl, hok1⟩
    · split
      · exact ⟨_, rfl, hok1⟩
      · exact ⟨_, rfl, hok1⟩
  · rw [if_neg hc]
    simp only [Option.some_bind]
    split
    · exact ⟨_, rfl, hok⟩
    · split
      · exact ⟨_, rfl, hok⟩
      · exact ⟨_, rfl, hok⟩

/-- Every operation of the engine returns on a well-formed state and leaves a
well-formed state. -/
theorem engine_step_ok (op : engine_op) (par : hub12_par) (hok : par_ok par)
    (hi : i_scan_ok par) : ∃ par1, engine_step op par = some par1 ∧ par_ok par1 := by
  cases op with
  | start =>
    simp only [engine_step, hub12fb_start_running]
    by_cases hr : par.running = true
    · rw [if_pos hr]; exact ⟨par, rfl, hok⟩
    · rw [if_neg hr]
      obtain ⟨fb, bufs, _, hdo, hal, _⟩ := do_vsync_ok par hok
      rw [hdo]
      obtain ⟨⟨h1, h2, _⟩, hr⟩ := hok
      exact ⟨_, rfl, ⟨⟨h1, h2, hal⟩, hr⟩⟩
  | stop env =>
    simp only [engine_step, hub12fb_stop_running]
    by_cases hr : par.running = true
    · rw [if_pos hr]
      obtain ⟨r, hw, hokr⟩ := wait_ok { par with
        running := false,
        trace := par.trace ++
          [hw_event.hrtimer_cancel timer_id.hsync_timer,
           hw_event.hrtimer_cancel timer_id.ledon_timer] } env hok hi
      rw [hw]
      exact ⟨r.2, rfl, hokr⟩
    · rw [if_neg hr]; exact ⟨par, rfl, hok⟩
  | tick =>
    simp only [engine_step, do_hsync]
    by_cases hr : par.running = false
    · rw [if_pos hr]; exact ⟨_, rfl, hok⟩
    · rw [if_neg hr]
      obtain ⟨par1, h1, hok1⟩ := request_ok { par with
        trace := par.trace ++ [hw_event.gpio_set_value gpio_line.latch 0] } hok hi
      rw [h1]
      exact ⟨par1, rfl, hok1⟩
  | request => exact request_ok par hok hi
  | completion =>
    obtain ⟨par1, h1, hok1, _⟩ := completion_ok par hok hi
    exact ⟨par1, h1, hok1⟩
  | convert =>
    obtain ⟨fb, bufs, _, hdo, hal, _⟩ := do_vsync_ok par hok
    obtain ⟨⟨h1, h2, _⟩, hr⟩ := hok
    exact ⟨_, hdo, ⟨⟨h1, h2, hal⟩, hr⟩⟩

/-! ## The scan index -/

/-- One completion: the scan index advances modulo 4, and `do_vsync` runs once
more exactly when the index wraps. -/
theorem completion_vsync_runs (par : hub12_par) (hok : par_ok par) (hi : i_scan_ok par) :
    ∃ par1, shift_scanline_completion par = some par1 ∧ par_ok par1 ∧
      par1.i_scan = (par.i_scan + 1) % 4 ∧
      vsync_runs par1 = vsync_runs par + (if par.i_scan = 3 then 1 else 0) := by
  obtain ⟨par1, h1, hok1, _, _, hs, ht⟩ := completion_ok par hok hi
  refine ⟨par1, h1, hok1, hs, ?_⟩
  unfold vsync_runs
  rw [ht, List.count_append, List.count_append, completion_calls_no_vsync]
  by_cases h3 : par.i_scan = 3
  · simp [h3]
  · simp [h3]

/-- C3 (scan index cycle): from a well-formed state with `i_scan = 0`, four runs
of the completion handler `shift_scanline_completion` return; after the first,
second and third `i_scan` is 1, 2 and 3 and `do_vsync` has not run, after the
fourth `i_scan` is 0 again and `do_vsync` has run exactly once. -/
theorem scan_index_cycle (par : hub12_par) (hok : par_ok par) (h0 : par.i_scan = 0) :
    ∃ p1 p2 p3 p4,
      shift_scanline_completion par = some p1 ∧
      shift_scanline_completion p1 = some p2 ∧
      shift_scanline_completion p2 = some p3 ∧
      shift_scanline_completion p3 = some p4 ∧
      p1.i_scan = 1 ∧ p2.i_scan = 2 ∧ p3.i_scan = 3 ∧ p4.i_scan = 0 ∧
      vsync_runs p1 = vsync_runs par ∧ vsync_runs p2 = vsync_runs par ∧
      vsync_runs p3 = vsync_runs par ∧ vsync_runs p4 = vsync_runs par + 1 := by
  obtain ⟨p1, e1, ok1, s1, r1⟩ := completion_vsync_runs par hok ⟨by omega, by omega⟩
  rw [h0] at s1 r1
  have s1v : p1.i_scan = 1 := by rw [s1]; rfl
  obtain ⟨p2, e2, ok2, s2, r2⟩ := completion_vsync_runs p1 ok1 ⟨by omega, by omega⟩
  rw [s1v] at s2 r2
  have s2v : p2.i_scan = 2 := by rw [s2]; rfl
  obtain ⟨p3, e3, ok3, s3, r3⟩ := completion_vsync_runs p2 ok2 ⟨by omega, by omega⟩
  rw [s2v] at s3 r3
  have s3v : p3.i_scan = 3 := by rw [s3]; rfl
  obtain ⟨p4, e4, _, s4, r4⟩ := completion_vsync_runs p3 ok3 ⟨by omega, by omega⟩
  rw [s3v] at s4 r4
  have s4v : p4.i_scan = 0 := by rw [s4]; rfl
  simp only [Int.reduceEq, if_false, if_true, Nat.add_zero] at r1 r2 r3 r4
  refine ⟨p1, p2, p3, p4, e1, e2, e3, e4, s1v, s2v, s3v, s4v, r1, ?_, ?_, ?_⟩
  · omega
  · omega
  · omega

/-- The hypotheses of `scan_index_cycle` hold in the state of the default 32x16
panel, which therefore runs through the cycle. -/
theorem scan_index_cycle_witness :
    par_ok par_32_16 ∧ par_32_16.i_scan = 0 ∧
    ∃ p1 p2 p3 p4,
      shift_scanline_completion par_32_16 = some p1 ∧
      shift_scanline_completion p1 = some p2 ∧
      shift_scanline_completion p2 = some p3 ∧
      shift_scanline_completion p3 = some p4 ∧
      p1.i_scan = 1 ∧ p2.i_scan = 2 ∧ p3.i_scan = 3 ∧ p4.i_scan = 0 ∧
      vsync_runs p1 = vsync_runs par_32_16 ∧ vsync_runs p2 = vsync_runs par_32_16 ∧
      vsync_runs p3 = vsync_runs par_32_16 ∧ vsync_runs p4 = vsync_runs par_32_16 + 1 :=
  ⟨by decide, rfl, scan_index_cycle par_32_16 (by decide) rfl⟩

/-- C4 (scan index invariant): `0 ≤ i_scan < 4` holds in the zeroed state; every
operation of the engine (start, stop, timer tick, transfer request, completion,
frame conversion) that starts with it ends with it; and with it the reads
`avals[i_scan]`, `bvals[i_scan]` and `hsync_buf[i_scan]` are inside their arrays
of four entries. On a well-formed state every operation returns. -/
theorem scan_index_invariant (pdata : hub12fb_platform_data) (op : engine_op)
    (par par1 : hub12_par) (hinv : i_scan_ok par) (hstep : engine_step op par = some par1) :
    i_scan_ok (par_zeroed pdata) ∧ i_scan_ok par1 ∧
    (index_int avals par1.i_scan).isSome = true ∧
    (index_int bvals par1.i_scan).isSome = true ∧
    (par1.hsync_buf.length = 4 → (index_int par1.hsync_buf par1.i_scan).isSome = true) ∧
    (par_ok par → par_ok par1) := by
  have h1 : i_scan_ok par1 := engine_step_i_scan_ok op par par1 hinv hstep
  obtain ⟨ha, hb⟩ := row_select_lookup par1 h1
  refine ⟨⟨by simp [par_zeroed], by simp [par_zeroed]⟩, h1, by rw [ha]; rfl, by rw [hb]; rfl,
    ?_, ?_⟩
  · intro hlen
    obtain ⟨h0, h4⟩ := h1
    have hlt : par1.i_scan.toNat < par1.hsync_buf.length := by omega
    unfold index_int
    rw [if_pos h0, List.get?_eq_getElem?, List.getElem?_eq_getElem hlt]
    rfl
  · intro hok
    obtain ⟨par2, h2, hok2⟩ := engine_step_ok op par hok hinv
    rw [h2] at hstep
    simp only [Option.some.injEq] at hstep
    rw [← hstep]; exact hok2

/-- The invariant of `scan_index_invariant` at the fourth completion of a frame of
the default 32x16 panel, where `i_scan` wraps from 3 to 0. -/
theorem scan_index_invariant_witness :
    i_scan_ok { par_32_16 with i_scan := 3 } ∧
    ∃ par1, engine_step engine_op.completion { par_32_16 with i_scan := 3 } = some par1 ∧
      i_scan_ok (par_zeroed default_platform_data) ∧ i_scan_ok par1 ∧
      (index_int avals par1.i_scan).isSome = true ∧
      (index_int bvals par1.i_scan).isSome = true ∧
      (par1.hsync_buf.length = 4 → (index_int par1.hsync_buf par1.i_scan).isSome = true) ∧
      (par_ok { par_32_16 with i_scan := 3 } → par_ok par1) :=
  ⟨by decide,
    match h : engine_step engine_op.completion { par_32_16 with i_scan := 3 } with
    | some par1 =>
      ⟨par1, rfl, scan_index_invariant default_platform_data engine_op.completion
          { par_32_16 with i_scan := 3 } par1 (by decide) h⟩
    | none => absurd h (by decide)⟩

/-! ## Collisions, start and stop, row select -/

/-- C5 (collision safety): while a transfer is in flight `shift_scanline_start`
returns the state as it is, so that no call is made and no member changes. In an
allocated state with `i_scan` in range it always returns and leaves `i_scan`, the
scan buffers and the bitmap as they are; when no transfer is in flight it sets
`hsync_running` and hands the SPI master scan buffer `i_scan` and nothing else. -/
theorem collision_safety (par : hub12_par) :
    (par.hsync_running = true → shift_scanline_start par = some par) ∧
    (allocated par → i_scan_ok par →
      ∃ par1, shift_scanline_start par = some par1 ∧
        par1.i_scan = par.i_scan ∧ par1.hsync_buf = par.hsync_buf ∧
        par1.fb_buffer = par.fb_buffer ∧
        (par.hsync_running = false →
          par1.hsync_running = true ∧
          par1.transfer_tx_buf = some par.i_scan.toNat ∧
          (∃ b, par.hsync_buf[par.i_scan.toNat]? = some (some b)) ∧
          par1.trace = par.trace ++
            [hw_event.spi_async_locked (some par.i_scan.toNat) par.transfer_len])) := by
  refine ⟨request_in_flight par, ?_⟩
  intro hal hi
  by_cases hr : par.hsync_running = true
  · refine ⟨par, request_in_flight par hr, rfl, rfl, rfl, ?_⟩
    intro hf; rw [hr] at hf; cases hf
  · have hr2 : par.hsync_running = false := by simpa using hr
    refine ⟨_, request_idle par hal hi hr2, rfl, rfl, rfl, ?_⟩
    intro _
    obtain ⟨_, hbufs⟩ := allocated_bufs par hal
    obtain ⟨b, hb, _⟩ := hbufs par.i_scan.toNat (by obtain ⟨h0, h4⟩ := hi; omega)
    exact ⟨rfl, rfl, ⟨b, hb⟩, rfl⟩

/-- Both halves of `collision_safety` on the default 32x16 panel: a request while
a transfer is in flight, and a request in the idle state. -/
theorem collision_safety_witness :
    shift_scanline_start { par_32_16 with hsync_running := true } =
      some { par_32_16 with hsync_running := true } ∧
    ∃ par1, shift_scanline_start par_32_16 = some par1 ∧
      par1.i_scan = par_32_16.i_scan ∧ par1.hsync_buf = par_32_16.hsync_buf ∧
      par1.fb_buffer = par_32_16.fb_buffer ∧
      (par_32_16.hsync_running = false →
        par1.hsync_running = true ∧
        par1.transfer_tx_buf = some par_32_16.i_scan.toNat ∧
        (∃ b, par_32_16.hsync_buf[par_32_16.i_scan.toNat]? = some (some b)) ∧
        par1.trace = par_32_16.trace ++
          [hw_event.spi_async_locked (some par_32_16.i_scan.toNat) par_32_16.transfer_len]) :=
  ⟨(collision_safety { par_32_16 with hsync_running := true }).1 rfl,
   (collision_safety par_32_16).2 (by decide) (by decide)⟩

/-- C7 (idempotent start and stop): `hub12fb_start_running` on a running state and
`hub12fb_stop_running` on a stopped state return the state as it is: no member
changes and no call is recorded. -/
theorem start_stop_idempotent (par1 par2 : hub12_par) (env : wait_env)
    (h1 : par1.running = true) (h2 : par2.running = false) :
    hub12fb_start_running par1 = some par1 ∧ hub12fb_stop_running par2 env = some par2 := by
  constructor
  · unfold hub12fb_start_running
    rw [if_pos h1]
  · unfold hub12fb_stop_running
    rw [if_neg (by rw [h2]; exact Bool.false_ne_true)]

/-- The two no-ops of `start_stop_idempotent` on the default 32x16 panel. -/
theorem start_stop_idempotent_witness :
    hub12fb_start_running { par_32_16 with running := true } =
      some { par_32_16 with running := true } ∧
    hub12fb_stop_running par_32_16 { spi_completes := true, signal_pending := false } =
      some par_32_16 :=
  start_stop_idempotent { par_32_16 with running := true } par_32_16
    { spi_completes := true, signal_pending := false } rfl rfl

/-- C10 (row-select mapping): on a well-formed state the completion handler
returns, and the calls it adds to the trace begin with the latch and the row
select lines `a = i_scan / 2`, `b = i_scan % 2`, that is (0,0), (0,1), (1,0), (1,1)
for `i_scan` = 0, 1, 2, 3; the two tables map the four indices one-to-one onto the
four pairs of bits. -/
theorem row_select_mapping (par : hub12_par) (hok : par_ok par) (hi : i_scan_ok par) :
    (∃ par1 rest, shift_scanline_completion par = some par1 ∧
      par1.trace = par.trace ++
        [hw_event.gpio_set_value gpio_line.latch 1,
         hw_event.gpio_set_value gpio_line.a (par.i_scan / 2),
         hw_event.gpio_set_value gpio_line.b (par.i_scan % 2)] ++ rest) ∧
    (index_int avals 0, index_int bvals 0) = (some 0, some 0) ∧
    (index_int avals 1, index_int bvals 1) = (some 0, some 1) ∧
    (index_int avals 2, index_int bvals 2) = (some 1, some 0) ∧
    (index_int avals 3, index_int bvals 3) = (some 1, some 1) ∧
    (∀ i j : Int, 0 ≤ i → i < 4 → 0 ≤ j → j < 4 →
      index_int avals i = index_int avals j → index_int bvals i = index_int bvals j → i = j) ∧
    (∀ a b : Int, (a = 0 ∨ a = 1) → (b = 0 ∨ b = 1) →
      ∃ i : Int, 0 ≤ i ∧ i < 4 ∧ index_int avals i = some a ∧ index_int bvals i = some b) := by
  refine ⟨?_, rfl, rfl, rfl, rfl, ?_, ?_⟩
  · obtain ⟨par1, h1, _, _, _, _, ht⟩ := completion_ok par hok hi
    refine ⟨par1,
      (if par.blank = FB_BLANK_UNBLANK ∧ par.running = true then
        [hw_event.gpio_set_value gpio_line.enable 1,
         hw_event.hrtimer_start timer_id.ledon_timer par.ledon_period]
       else []) ++ (if par.i_scan = 3 then [hw_event.do_vsync] else []), h1, ?_⟩
    rw [ht]
    unfold completion_calls
    simp only [List.append_assoc]
  · intro i j hi0 hi4 hj0 hj4 ha hb
    have hi : i = 0 ∨ i = 1 ∨ i = 2 ∨ i = 3 := by omega
    have hj : j = 0 ∨ j = 1 ∨ j = 2 ∨ j = 3 := by omega
    rcases hi with rfl | rfl | rfl | rfl <;> rcases hj with rfl | rfl | rfl | rfl <;>
      first
        | rfl
        | (exfalso; revert ha; decide)
        | (exfalso; revert hb; decide)
  · intro a b ha hb
    rcases ha with rfl | rfl <;> rcases hb with rfl | rfl
    · exact ⟨0, by decide⟩
    · exact ⟨1, by decide⟩
    · exact ⟨2, by decide⟩
    · exact ⟨3, by decide⟩

/-- The row select of `row_select_mapping` for the third scan line of the default
32x16 panel: `a = 1`, `b = 0`. -/
theorem row_select_mapping_witness :
    par_ok { par_32_16 with i_scan := 2 } ∧ i_scan_ok { par_32_16 with i_scan := 2 } ∧
    ∃ par1 rest, shift_scanline_completion { par_32_16 with i_scan := 2 } = some par1 ∧
      par1.trace = ({ par_32_16 with i_scan := 2 } : hub12_par).trace ++
        [hw_event.gpio_set_value gpio_line.latch 1,
         hw_event.gpio_set_value gpio_line.a (({ par_32_16 with i_scan := 2 } : hub12_par).i_scan / 2),
         hw_event.gpio_set_value gpio_line.b (({ par_32_16 with i_scan := 2 } : hub12_par).i_scan % 2)]
        ++ rest :=
  ⟨by decide, by decide,
    (row_select_mapping { par_32_16 with i_scan := 2 } (by decide) (by decide)).1⟩

/-! ## The layout of the scan buffers and the round trip -/

/-- The frame converter on a well-formed state whose height is a multiple of 16:
the `height/16 * rowbytes * 4` stores into a scan buffer fill its
`rowbytes * height / 4` bytes, and the buffer holds
`scan[i][j*rowbytes*4 + k*4 + l] = bitmap[(j*16 + l*4 + i)*rowbytes + k]`, every
index read lying inside the bitmap. -/
theorem do_vsync_deinterleave (par : hub12_par) (hok : par_ok par)
    (h16 : 16 ∣ par.pdata.height) :
    ∃ fb par1, par.fb_buffer = some fb ∧
      fb.length = par.pdata.width / 8 * par.pdata.height ∧
      do_vsync par = some par1 ∧
      par.pdata.height / 16 * (par.pdata.width / 8) * 4
        = par.pdata.width / 8 * par.pdata.height / 4 ∧
      ∀ i, i < 4 → ∃ b, par1.hsync_buf[i]? = some (some b) ∧
        b.length = par.pdata.width / 8 * par.pdata.height / 4 ∧
        ∀ j k l, j < par.pdata.height / 16 → k < par.pdata.width / 8 → l < 4 →
          (j * 16 + l * 4 + i) * (par.pdata.width / 8) + k < fb.length ∧
          b[j * (par.pdata.width / 8) * 4 + k * 4 + l]? =
            fb[(j * 16 + l * 4 + i) * (par.pdata.width / 8) + k]? := by
  obtain ⟨fb, bufs, hfb, hdo, _, hlay⟩ := do_vsync_ok par hok
  obtain ⟨fb2, hfb2, hfblen⟩ := allocated_fb par hok.1
  have hfbeq : fb2 = fb := by rw [hfb] at hfb2; injection hfb2 with h; exact h.symm
  subst hfbeq
  obtain ⟨_, hbufs⟩ := allocated_bufs par hok.1
  have hL : par.hsync_length = par.pdata.width / 8 * par.pdata.height / 4 := hok.1.2.1
  refine ⟨fb2, _, hfb, hfblen, hdo, scanline_exact _ _ h16, ?_⟩
  intro i hi
  obtain ⟨b0, b, hb0, hb, hlen, hlow, _⟩ := hlay i hi
  obtain ⟨c0, hc0, hc0l⟩ := hbufs i hi
  have hbc : b0 = c0 := by rw [hb0] at hc0; simpa using hc0
  refine ⟨b, hb, by rw [hlen, hbc, hc0l, hL], ?_⟩
  intro j k l hj hk hl
  have hsrc := src_in_bitmap (par.pdata.width / 8) par.pdata.height i j k l hi hj hk hl
  have hdst := dst_in_scanline (par.pdata.width / 8) par.pdata.height j k l hj hk hl
  have hm : j * (par.pdata.width / 8) * 4 + k * 4 + l
      = (j * (par.pdata.width / 8) + k) * 4 + l := by ring
  refine ⟨by omega, ?_⟩
  rw [hm, hlow _ hdst, src_index_eq _ i j k l hk hl]

/-- The map `(i, j, k, l) ↦ (j*16 + l*4 + i)*rowbytes + k` is one-to-one on
`i < 4`, `j < height/16`, `k < rowbytes`, `l < 4` and reaches every index below
`rowbytes * height`, when the height is a multiple of 16. -/
theorem interleave_index_bijective (rowbytes height : Nat) (h16 : 16 ∣ height) :
    (∀ i j k l i2 j2 k2 l2 : Nat, i < 4 → l < 4 → k < rowbytes → i2 < 4 → l2 < 4 →
      k2 < rowbytes →
      (j * 16 + l * 4 + i) * rowbytes + k = (j2 * 16 + l2 * 4 + i2) * rowbytes + k2 →
      i = i2 ∧ j = j2 ∧ k = k2 ∧ l = l2) ∧
    (∀ p, p < rowbytes * height → ∃ i j k l, i < 4 ∧ j < height / 16 ∧ k < rowbytes ∧ l < 4 ∧
      (j * 16 + l * 4 + i) * rowbytes + k = p) := by
  constructor
  · intro i j k l i2 j2 k2 l2 hi hl hk hi2 hl2 hk2 he
    have hpos : 0 < rowbytes := by omega
    have hrow : j * 16 + l * 4 + i = j2 * 16 + l2 * 4 + i2 := by
      have h1 := congrArg (fun n => n / rowbytes) he
      simp only [] at h1
      rw [Nat.mul_comm _ rowbytes, Nat.mul_comm _ rowbytes, Nat.mul_add_div hpos,
        Nat.mul_add_div hpos, Nat.div_eq_of_lt hk, Nat.div_eq_of_lt hk2] at h1
      omega
    have hkk : k = k2 := by
      rw [hrow] at he
      omega
    omega
  · intro p hp
    have hpos : 0 < rowbytes := by
      rcases Nat.eq_zero_or_pos rowbytes with h | h
      · rw [h] at hp; simp at hp
      · exact h
    have hrow : p / rowbytes < height := by
      rw [Nat.div_lt_iff_lt_mul hpos, Nat.mul_comm]; exact hp
    obtain ⟨q, rfl⟩ := h16
    refine ⟨p / rowbytes % 4, p / rowbytes / 16, p % rowbytes, p / rowbytes % 16 / 4,
      by omega, by omega, Nat.mod_lt _ hpos, by omega, ?_⟩
    have h1 : p / rowbytes / 16 * 16 + p / rowbytes % 16 / 4 * 4 + p / rowbytes % 4
        = p / rowbytes := by omega
    rw [h1, Nat.mul_comm]
    exact Nat.div_add_mod p rowbytes

/-- Round trip on a well-formed state whose height is a multiple of 16: the
inverse interleave of the scan buffers that `do_vsync` fills is the bitmap. -/
theorem do_vsync_round_trip (par : hub12_par) (hok : par_ok par)
    (h16 : 16 ∣ par.pdata.height) :
    ∃ fb par1, par.fb_buffer = some fb ∧ do_vsync par = some par1 ∧
      inverse_interleave par1.hsync_buf (par.pdata.width / 8) par.pdata.height = fb := by
  obtain ⟨fb, par1, hfb, hfblen, hdo, _, hall⟩ := do_vsync_deinterleave par hok h16
  refine ⟨fb, par1, hfb, hdo, ?_⟩
  apply List.ext_getElem?
  intro p
  unfold inverse_interleave
  rw [List.getElem?_map]
  unfold inverse_byte
  by_cases hp : p < par.pdata.width / 8 * par.pdata.height
  · rw [List.getElem?_range hp]
    have hpos : 0 < par.pdata.width / 8 := by
      rcases Nat.eq_zero_or_pos (par.pdata.width / 8) with h | h
      · rw [h] at hp; simp at hp
      · exact h
    have hrow : p / (par.pdata.width / 8) < par.pdata.height := by
      rw [Nat.div_lt_iff_lt_mul hpos, Nat.mul_comm]; exact hp
    have hj : p / (par.pdata.width / 8) / 16 < par.pdata.height / 16 := by
      obtain ⟨q, hq⟩ := h16
      omega
    have hk : p % (par.pdata.width / 8) < par.pdata.width / 8 := Nat.mod_lt _ hpos
    have hl : p / (par.pdata.width / 8) % 16 / 4 < 4 := by omega
    have hi : p / (par.pdata.width / 8) % 4 < 4 := by omega
    obtain ⟨b, hb, _, hbytes⟩ := hall _ hi
    obtain ⟨hin, hval⟩ := hbytes _ _ _ hj hk hl
    have h1 : p / (par.pdata.width / 8) / 16 * 16 + p / (par.pdata.width / 8) % 16 / 4 * 4
        + p / (par.pdata.width / 8) % 4 = p / (par.pdata.width / 8) := by omega
    have h2 : p / (par.pdata.width / 8) * (par.pdata.width / 8) + p % (par.pdata.width / 8)
        = p := by
      rw [Nat.mul_comm]; exact Nat.div_add_mod p _
    rw [h1, h2] at hval hin
    simp only [Option.map_some', List.get?_eq_getElem?, hb, Option.join, id, Option.some_bind,
      hval, List.getElem?_eq_getElem hin, Option.getD_some]
  · rw [List.getElem?_eq_none (by rw [List.length_range]; omega),
      List.getElem?_eq_none (by omega)]
    rfl

/-! ## A panel wider than the `u16` row counter -/

theorem set_same_entry {α : Type} (l : List α) (i : Nat) (h : i < l.length) :
    l.set i (l[i]) = l := by
  apply List.ext_getElem?
  intro n
  rw [List.getElem?_set]
  by_cases hn : i = n
  · subst hn
    rw [if_pos rfl, if_pos h, List.getElem?_eq_getElem h]
  · rw [if_neg hn]

/-- A loop with bound 0 has no turn. -/
theorem for_u16_no_turn {σ : Type} (body : Nat → σ → Option σ) (c : Nat) (s : σ) :
    for_u16 0 body u16_fuel c s = some s := by
  show for_u16 0 body (65536 + 1) c s = some s
  simp [for_u16]

/-- When the `u16` variable `rowbytes` is 0, `do_vsync` stores nothing: the scan
buffers stay as they are. -/
theorem do_vsync_no_columns (par : hub12_par) (hz : par.pdata.width / 8 % 65536 = 0)
    (hh : par.pdata.height / 16 ≤ 65535) (hlen : par.hsync_buf.length = 4) :
    do_vsync par = some { par with
      i_scan := 0, vsync_flag := true, trace := par.trace ++ [hw_event.do_vsync] } := by
  have hline : ∀ i lb, do_vsync_scanline par.fb_buffer par.pdata.height 0 i lb = some lb := by
    intro i lb
    obtain ⟨lb1, h1, he⟩ := for_u16_from_zero (fun _ s => s = lb) (par.pdata.height / 16)
      (fun j lb => for_u16 0
        (fun k lb => for_u16 4
          (fun l lb => do_vsync_store par.fb_buffer 0 i j k l lb) u16_fuel 0 lb)
        u16_fuel 0 lb) hh
      (fun c s _ hs => ⟨s, for_u16_no_turn _ 0 s, hs⟩) lb rfl
    unfold do_vsync_scanline
    rw [h1, he]
  have hbody : ∀ i, i < 4 →
      do_vsync_body par.fb_buffer par.pdata.height 0 i par.hsync_buf = some par.hsync_buf := by
    intro i hi
    have hlt : i < par.hsync_buf.length := by omega
    unfold do_vsync_body
    rw [List.get?_eq_getElem?, List.getElem?_eq_getElem hlt, Option.some_bind, hline,
      Option.some_bind]
    exact congrArg some (set_same_entry par.hsync_buf i hlt)
  obtain ⟨bufs, h1, he⟩ := for_u16_from_zero (fun _ s => s = par.hsync_buf) 4
    (do_vsync_body par.fb_buffer par.pdata.height 0) (by norm_num)
    (fun c s hc hs => ⟨s, by rw [hs]; exact hbody c hc, hs⟩) par.hsync_buf rfl
  unfold do_vsync
  simp only [hz, h1, he, Option.some_bind]

/-- The buffers of `par_wide` are those of a 524288 x 16 panel. -/
theorem par_wide_allocated : allocated par_wide := by
  refine ⟨?_, rfl, ?_⟩
  · show Option.map List.length (some (List.replicate 1048576 1)) = some (524288 / 8 * 16)
    rw [Option.map_some', List.length_replicate]
  · show List.map (Option.map List.length) (List.replicate 4 (some (List.replicate 262144 0)))
      = List.replicate 4 (some 262144)
    rw [List.map_replicate, Option.map_some', List.length_replicate]

/-- In `par_wide` the first byte of the bitmap is 1 and the first byte of scan
buffer 0 is 0. -/
theorem par_wide_first_bytes :
    par_wide.fb_buffer.bind (fun m => m[0]?) = some 1 ∧
    (par_wide.hsync_buf[0]?).join.bind (fun b => b[0]?) = some 0 := by
  constructor
  · show (some (List.replicate 1048576 1)).bind (fun m => m[0]?) = some 1
    rw [Option.some_bind, List.getElem?_replicate, if_pos (by decide)]
  · show ((List.replicate 4 (some (List.replicate 262144 0)))[0]?).join.bind (fun b => b[0]?)
      = some 0
    rw [List.getElem?_replicate, if_pos (by decide), Option.join, Option.some_bind, id,
      Option.some_bind, List.getElem?_replicate, if_pos (by decide)]

/-- On `par_wide` the frame converter returns with the scan buffers as they
were. -/
theorem par_wide_no_store :
    do_vsync par_wide = some { par_wide with
      i_scan := 0, vsync_flag := true, trace := [hw_event.do_vsync] } :=
  do_vsync_no_columns par_wide (by decide) (by decide)
    (by
      show (List.replicate 4 (some (List.replicate 262144 0))).length = 4
      rw [List.length_replicate])

/-- When `height/16` is more than a `u16` can hold, the loop over `j` of `do_vsync`
never leaves: the frame converter does not return. -/
theorem do_vsync_tall_panel (par : hub12_par) (hh : 65536 ≤ par.pdata.height / 16) :
    do_vsync par = none := by
  have hline : ∀ i lb, do_vsync_scanline par.fb_buffer par.pdata.height
      (par.pdata.width / 8 % 65536) i lb = none := by
    intro i lb
    unfold do_vsync_scanline
    exact for_u16_diverges _ _ hh u16_fuel 0 lb (by norm_num)
  have hbody : do_vsync_body par.fb_buffer par.pdata.height (par.pdata.width / 8 % 65536) 0
      par.hsync_buf = none := by
    unfold do_vsync_body
    cases par.hsync_buf.get? 0 with
    | none => rfl
    | some p => rw [Option.some_bind, hline]; rfl
  have hloop : for_u16 4 (do_vsync_body par.fb_buffer par.pdata.height
      (par.pdata.width / 8 % 65536)) u16_fuel 0 par.hsync_buf = none := by
    show for_u16 4 _ (65536 + 1) 0 par.hsync_buf = none
    rw [for_u16, if_pos (by norm_num), hbody]
    rfl
  unfold do_vsync
  simp only [hloop, Option.none_bind]

/-- C1, at the failing input: for a 524288 x 16 panel the `u16` variable `rowbytes`
of `do_vsync` is `65536 % 65536 = 0`, the loop over `k` has no turn, and `do_vsync`
returns without a single store: `scan[0][0]` keeps its 0 where the layout asks
for `bitmap[0] = 1`, and none of the `65536 * 16 / 4` bytes of a scan buffer is
written. -/
theorem do_vsync_wide_panel :
    allocated par_wide ∧
    par_wide.pdata.width / 8 * par_wide.pdata.height / 4 = 262144 ∧
    do_vsync par_wide = some { par_wide with
      i_scan := 0, vsync_flag := true, trace := [hw_event.do_vsync] } ∧
    par_wide.fb_buffer.bind (fun m => m[0]?) = some 1 ∧
    (do_vsync par_wide).bind (fun p => (p.hsync_buf[0]?).join.bind (fun b => b[0]?)) = some 0 := by
  refine ⟨par_wide_allocated, by decide, par_wide_no_store, par_wide_first_bytes.1, ?_⟩
  rw [par_wide_no_store, Option.some_bind]
  exact par_wide_first_bytes.2

/-- The documented test pattern: for the 32x16 panel `do_vsync` fills four buffers
of 16 bytes, the first with FF 11 10 15 FF C0 10 01 FF 11 18 90 FF 88 18 19. -/
theorem do_vsync_test_pattern :
    (do_vsync par_32_16).map (fun p => p.hsync_buf) =
      some [some [0xFF, 0x11, 0x10, 0x15, 0xFF, 0xC0, 0x10, 0x01,
                  0xFF, 0x11, 0x18, 0x90, 0xFF, 0x88, 0x18, 0x19],
            some [0x30, 0x12, 0x12, 0x12, 0x00, 0x00, 0x20, 0x02,
                  0x30, 0x12, 0x14, 0x50, 0x0C, 0x48, 0x28, 0x1A],
            some [0x50, 0x14, 0x15, 0x10, 0xC0, 0x00, 0x40, 0x01,
                  0x50, 0x14, 0x12, 0x38, 0x0A, 0x28, 0x58, 0x3C],
            some [0x90, 0x18, 0x98, 0xFE, 0x21, 0x00, 0x80, 0xC8,
                  0x90, 0x18, 0x19, 0xF3, 0x09, 0x18, 0x98, 0x1F]] := by
  decide

/-- C2, at the failing input of C1: for the 524288 x 16 panel the scan buffers that
`do_vsync` leaves do not hold the bitmap, so that the inverse interleave does not
give the bitmap back: its first byte is 0, the first byte of the bitmap is 1. -/
theorem do_vsync_wide_no_round_trip :
    (do_vsync par_wide).bind (fun p =>
      (inverse_interleave p.hsync_buf (par_wide.pdata.width / 8) par_wide.pdata.height)[0]?)
      = some 0 ∧
    par_wide.fb_buffer.bind (fun m => m[0]?) = some 1 := by
  refine ⟨?_, par_wide_first_bytes.1⟩
  have hbyte : inverse_byte par_wide.hsync_buf (par_wide.pdata.width / 8) 0 = 0 := by
    have h0 := par_wide_first_bytes.2
    unfold inverse_byte
    simp only [Nat.zero_div, Nat.zero_mod, Nat.zero_mul, Nat.add_zero, List.get?_eq_getElem?]
    rw [h0]
    rfl
  rw [par_wide_no_store, Option.some_bind]
  unfold inverse_interleave
  rw [List.getElem?_map, List.getElem?_range (by decide), Option.map_some']
  exact congrArg some hbyte

/-! ## Teardown -/

/-- C6, at the failing input: the default 32x16 panel is started and the first
timer tick has requested a transfer, so that `running` and `hsync_running` are
set; `hub12fb_stop_running` then sleeps in `wait_for_vsync` until the timeout
(the SPI master has not completed the transfer) and returns with `running`
cleared and `hsync_running` still set: the transfer is still in flight. -/
theorem stop_leaves_transfer_in_flight :
    par_in_flight.map (fun p => (p.running, p.hsync_running)) = some (true, true) ∧
    (par_in_flight.bind (fun p => wait_for_vsync { p with
        running := false,
        trace := p.trace ++
          [hw_event.hrtimer_cancel timer_id.hsync_timer,
           hw_event.hrtimer_cancel timer_id.ledon_timer] } env_timeout)).map
      (fun r => r.1) = some (-ETIMEDOUT) ∧
    (par_in_flight.bind (fun p => hub12fb_stop_running p env_timeout)).map
      (fun p => (p.running, p.hsync_running)) = some (false, true) := by
  decide

/-- Whenever a transfer is in flight and does not complete during the sleep of
`wait_for_vsync`, `hub12fb_stop_running` returns with `hsync_running` still set. -/
theorem stop_running_timeout (par : hub12_par) (env : wait_env) (hr : par.running = true)
    (hf : par.hsync_running = true) (hc : env.spi_completes = false) :
    ∃ par1, hub12fb_stop_running par env = some par1 ∧
      par1.running = false ∧ par1.hsync_running = true := by
  simp only [hub12fb_stop_running, hr, if_true, wait_for_vsync, hc, Bool.false_eq_true,
    and_false, if_false, Option.some_bind]
  by_cases hs : env.signal_pending = true
  · rw [if_pos hs]; exact ⟨_, rfl, rfl, hf⟩
  · rw [if_neg hs]; exact ⟨_, rfl, rfl, hf⟩

/-- When the transfer in flight, if any, completes during the sleep of
`wait_for_vsync`, `hub12fb_stop_running` returns with `running` and
`hsync_running` both cleared. -/
theorem stop_running_quiescent (par : hub12_par) (env : wait_env) (hok : par_ok par)
    (hi : i_scan_ok par) (hr : par.running = true)
    (hc : par.hsync_running = true → env.spi_completes = true) :
    ∃ par1, hub12fb_stop_running par env = some par1 ∧
      par1.running = false ∧ par1.hsync_running = false := by
  simp only [hub12fb_stop_running, hr, if_true, wait_for_vsync]
  by_cases hf : par.hsync_running = true
  · obtain ⟨par1, h1, _, hq, hrun, _⟩ := completion_ok { par with
      running := false, vsync_flag := false,
      trace := par.trace ++
        [hw_event.hrtimer_cancel timer_id.hsync_timer,
         hw_event.hrtimer_cancel timer_id.ledon_timer] } hok hi
    rw [if_pos ⟨hf, hc hf⟩, h1]
    simp only [Option.some_bind]
    split
    · exact ⟨par1, rfl, hrun, hq⟩
    · split
      · exact ⟨par1, rfl, hrun, hq⟩
      · exact ⟨par1, rfl, hrun, hq⟩
  · have hf2 : par.hsync_running = false := by simpa using hf
    rw [if_neg (fun h => hf h.1)]
    simp only [Option.some_bind]
    split
    · exact ⟨_, rfl, rfl, hf2⟩
    · split
      · exact ⟨_, rfl, rfl, hf2⟩
      · exact ⟨_, rfl, rfl, hf2⟩

/-! ## Brightness and the LED enable line -/

theorem to_s64_of_fits (x : Int) (h0 : 0 ≤ x) (h1 : x < 2 ^ 63) : to_s64 x = x := by
  unfold to_s64; omega

/-- As long as the `s64` product does not overflow, `ledon_period` is
`floor(b * h / 256)`. -/
theorem ledon_after_eq (par : hub12_par) (b : Nat) (hpos : 0 ≤ par.hsync_period)
    (hfit : (b : Int) * par.hsync_period < 2 ^ 63) :
    ledon_after par b = (b : Int) * par.hsync_period / 256 := by
  have hb : (0 : Int) ≤ (b : Int) := Int.ofNat_nonneg b
  have hprod : 0 ≤ (b : Int) * par.hsync_period := Int.mul_nonneg hb hpos
  have hq0 : 0 ≤ (b : Int) * par.hsync_period / 256 := Int.ediv_nonneg hprod (by norm_num)
  have hq1 : (b : Int) * par.hsync_period / 256 < 2 ^ 63 := by omega
  unfold ledon_after hub12fb_set_brightness
  simp only []
  rw [to_s64_of_fits _ hprod hfit, Int.tdiv_eq_ediv hprod (by norm_num)]
  unfold to_u64
  rw [Int.emod_eq_of_lt hq0 (by omega), to_s64_of_fits _ hq0 hq1]

/-- Beyond the periods the driver stores the `s64` product can wrap: for a scan
line period of `2^56` ns and brightness 255 the product `255 * 2^56` wraps and
`ledon_period` becomes `-2^48`. No assignment of the driver gives `hsync_period`
such a value, see `stored_period_bound`. -/
theorem brightness_law_overflow :
    ledon_after { par_32_16 with hsync_period := 2 ^ 56 } 255 = -281474976710656 ∧
    ledon_after { par_32_16 with hsync_period := 2 ^ 56 } 255 ≠ 255 * 2 ^ 56 / 256 ∧
    ¬ (ledon_after { par_32_16 with hsync_period := 2 ^ 56 } 0
        ≤ ledon_after { par_32_16 with hsync_period := 2 ^ 56 } 255) := by
  decide

/-- For a scan line period `h > 0` with `255 * h < 2^63` and brightness values
`b1 ≤ b2 ≤ 255`, `hub12fb_set_brightness` sets `ledon_period = floor(b * h / 256)`;
this does not decrease from `b1` to `b2`, is 0 for brightness 0 and is below `h`
for brightness 255. -/
theorem ledon_law_of_fits (par : hub12_par) (b1 b2 : Nat) (hpos : 0 < par.hsync_period)
    (hfit : 255 * par.hsync_period < 2 ^ 63) (h12 : b1 ≤ b2) (h255 : b2 ≤ 255) :
    ledon_after par b1 = (b1 : Int) * par.hsync_period / 256 ∧
    ledon_after par b2 = (b2 : Int) * par.hsync_period / 256 ∧
    ledon_after par b1 ≤ ledon_after par b2 ∧
    ledon_after par 0 = 0 ∧
    ledon_after par 255 < par.hsync_period := by
  have hfits : ∀ b : Nat, b ≤ 255 → (b : Int) * par.hsync_period < 2 ^ 63 := by
    intro b hb
    have hb2 : (b : Int) ≤ 255 := by exact_mod_cast hb
    have := Int.mul_le_mul_of_nonneg_right hb2 (Int.le_of_lt hpos)
    omega
  have e1 := ledon_after_eq par b1 (Int.le_of_lt hpos) (hfits b1 (by omega))
  have e2 := ledon_after_eq par b2 (Int.le_of_lt hpos) (hfits b2 h255)
  have e0 := ledon_after_eq par 0 (Int.le_of_lt hpos) (hfits 0 (by omega))
  have e255 := ledon_after_eq par 255 (Int.le_of_lt hpos) (hfits 255 (by omega))
  refine ⟨e1, e2, ?_, ?_, ?_⟩
  · rw [e1, e2]
    apply Int.ediv_le_ediv (by norm_num)
    exact Int.mul_le_mul_of_nonneg_right (by exact_mod_cast h12) (Int.le_of_lt hpos)
  · rw [e0]; simp
  · rw [e255]
    apply Int.ediv_lt_of_lt_mul (by norm_num)
    push_cast
    omega

/-- The scan line periods that `hub12fb_set_par` stores lie between 0 and
250000000 ns, whatever the refresh rate. -/
theorem stored_period_bound (refresh : Nat) :
    0 ≤ stored_period refresh ∧ stored_period refresh ≤ 250000000 := by
  have h1 : 1000000000 / refresh ≤ 1000000000 := Nat.div_le_self _ _
  have h2 : 1000000000 / refresh / 4 ≤ 250000000 := by omega
  unfold stored_period NSEC_PER_SEC
  constructor
  · exact Int.ofNat_nonneg _
  · exact_mod_cast h2

/-- C8 (brightness law): for every scan line period `h > 0` that the driver
stores (`hsync_period` is written only by `hub12fb_set_par`, with the value
`stored_period refresh`) and brightness values `b1 ≤ b2` in 0..255,
`hub12fb_set_brightness` sets `ledon_period = floor(b * h / 256)`; this does not
decrease from `b1` to `b2`, is 0 for brightness 0 and is below `h` for
brightness 255. -/
theorem brightness_law (par : hub12_par) (refresh b1 b2 : Nat)
    (hper : par.hsync_period = stored_period refresh) (hpos : 0 < par.hsync_period)
    (h12 : b1 ≤ b2) (h255 : b2 ≤ 255) :
    ledon_after par b1 = (b1 : Int) * par.hsync_period / 256 ∧
    ledon_after par b2 = (b2 : Int) * par.hsync_period / 256 ∧
    ledon_after par b1 ≤ ledon_after par b2 ∧
    ledon_after par 0 = 0 ∧
    ledon_after par 255 < par.hsync_period := by
  have hb := (stored_period_bound refresh).2
  rw [← hper] at hb
  exact ledon_law_of_fits par b1 b2 hpos (by omega) h12 h255

/-- The brightness law for the default 32x16 panel at 60 Hz (scan line period
`stored_period 60 = 4166666` ns) and the brightness values 128 and 255. -/
theorem brightness_law_witness :
    par_32_16.hsync_period = stored_period 60 ∧ 0 < par_32_16.hsync_period ∧
    ledon_after par_32_16 128 = (128 : Nat) * par_32_16.hsync_period / 256 ∧
    ledon_after par_32_16 255 = (255 : Nat) * par_32_16.hsync_period / 256 ∧
    ledon_after par_32_16 128 ≤ ledon_after par_32_16 255 ∧
    ledon_after par_32_16 0 = 0 ∧
    ledon_after par_32_16 255 < par_32_16.hsync_period :=
  ⟨by decide, by decide,
   brightness_law par_32_16 60 128 255 (by decide) (by decide) (by decide) (by decide)⟩

/-- With brightness 0, `hub12fb_set_brightness` sets `ledon_period = 0`, whatever
the scan line period. -/
theorem set_brightness_zero (par : hub12_par) (hb : par.pdata.brightness = 0) :
    (hub12fb_set_brightness par).ledon_period = 0 := by
  unfold hub12fb_set_brightness
  simp only [hb]
  have h0 : ((0 : Nat) : Int) * par.hsync_period = 0 := by simp
  rw [h0]
  decide

/-- C9, counterexample: the default 32x16 panel, unblanked and running, with
brightness 0 and hence `ledon_period = 0`: the completion handler sets the
LED enable line to 1 and starts the LED timer with period 0. -/
theorem led_on_at_brightness_zero :
    par_dark.pdata.brightness = 0 ∧ par_dark.ledon_period = 0 ∧
    par_dark.blank = FB_BLANK_UNBLANK ∧ par_dark.running = true ∧
    (shift_scanline_completion par_dark).map (fun p => p.trace) =
      some [hw_event.gpio_set_value gpio_line.latch 1,
            hw_event.gpio_set_value gpio_line.a 0,
            hw_event.gpio_set_value gpio_line.b 0,
            hw_event.gpio_set_value gpio_line.enable 1,
            hw_event.hrtimer_start timer_id.ledon_timer 0] := by
  decide

/-- C9 (amended): with brightness 0, `hub12fb_set_brightness` sets
`ledon_period = 0`; the completion handler then sets the LED enable line to 1
exactly when the display is unblanked and the engine running, and in that case
starts the LED timer with period 0. In a blanked or stopped state it does not
touch the LED enable line. -/
theorem led_enable_gate (par : hub12_par) (hok : par_ok par) (hi : i_scan_ok par)
    (hb : par.pdata.brightness = 0) :
    (hub12fb_set_brightness par).ledon_period = 0 ∧
    ∃ par1, shift_scanline_completion (hub12fb_set_brightness par) = some par1 ∧
      par1.trace = par.trace ++
        [hw_event.gpio_set_value gpio_line.latch 1,
         hw_event.gpio_set_value gpio_line.a (par.i_scan / 2),
         hw_event.gpio_set_value gpio_line.b (par.i_scan % 2)] ++
        (if par.blank = FB_BLANK_UNBLANK ∧ par.running = true then
          [hw_event.gpio_set_value gpio_line.enable 1,
           hw_event.hrtimer_start timer_id.ledon_timer 0]
         else []) ++
        (if par.i_scan = 3 then [hw_event.do_vsync] else []) ∧
      (hw_event.gpio_set_value gpio_line.enable 1 ∈ par1.trace.drop par.trace.length ↔
        (par.blank = FB_BLANK_UNBLANK ∧ par.running = true)) ∧
      (∀ v, hw_event.gpio_set_value gpio_line.enable v ∈ par1.trace.drop par.trace.length →
        (par.blank = FB_BLANK_UNBLANK ∧ par.running = true)) := by
  have hz := set_brightness_zero par hb
  refine ⟨hz, ?_⟩
  obtain ⟨par1, h1, _, _, _, _, ht⟩ := completion_ok (hub12fb_set_brightness par) hok hi
  have ht2 : par1.trace = par.trace ++
        [hw_event.gpio_set_value gpio_line.latch 1,
         hw_event.gpio_set_value gpio_line.a (par.i_scan / 2),
         hw_event.gpio_set_value gpio_line.b (par.i_scan % 2)] ++
        (if par.blank = FB_BLANK_UNBLANK ∧ par.running = true then
          [hw_event.gpio_set_value gpio_line.enable 1,
           hw_event.hrtimer_start timer_id.ledon_timer 0]
         else []) ++
        (if par.i_scan = 3 then [hw_event.do_vsync] else []) := by
    rw [ht]
    unfold completion_calls
    rw [hz]
    simp only [hub12fb_set_brightness, List.append_assoc]
  refine ⟨par1, h1, ht2, ?_, ?_⟩
  · rw [ht2]
    by_cases hc : par.blank = FB_BLANK_UNBLANK ∧ par.running = true <;>
      by_cases h3 : par.i_scan = 3 <;> simp [hc, h3]
  · intro v
    rw [ht2]
    by_cases hc : par.blank = FB_BLANK_UNBLANK ∧ par.running = true <;>
      by_cases h3 : par.i_scan = 3 <;> simp [hc, h3]

/-- The gate of `led_enable_gate` on the default 32x16 panel with brightness 0,
unblanked and running. -/
theorem led_enable_gate_witness :
    par_ok par_dark ∧ i_scan_ok par_dark ∧ par_dark.pdata.brightness = 0 ∧
    (hub12fb_set_brightness par_dark).ledon_period = 0 :=
  ⟨by decide, by decide, by decide, (led_enable_gate par_dark (by decide) (by decide) (by decide)).1⟩

/-! ## Geometry rounding -/

/-- The function `hub12fb_check_var` in one formula: the geometry is rounded in
`u32` arithmetic, the pixel clock is raised to the value for 1000 Hz, and the
function returns unless that value is a division by 0. -/
theorem check_var_eq (var : fb_var_screeninfo) :
    hub12fb_check_var var =
      (KHZ2PICOS ((1000 * (((max var.xres 1 + 31) % U32) / 32 * 32 % U32)
          * (((max var.yres 1 + 15) % U32) / 16 * 16 % U32)) % U32)).map (fun q =>
        check_var_fields var (((max var.xres 1 + 31) % U32) / 32 * 32 % U32)
          (((max var.yres 1 + 15) % U32) / 16 * 16 % U32)
          (max var.pixclock ((1000 * q) % U32))) := by
  have h1 : (if var.xres = 0 then { var with xres := 1 } else var)
      = { var with xres := max var.xres 1 } := by
    by_cases h : var.xres = 0
    · rw [if_pos h, h]; rfl
    · rw [if_neg h, show max var.xres 1 = var.xres by omega]
  have h2 : (if var.yres = 0 then { var with xres := max var.xres 1, yres := 1 }
        else { var with xres := max var.xres 1 })
      = { var with xres := max var.xres 1, yres := max var.yres 1 } := by
    by_cases h : var.yres = 0
    · rw [if_pos h, h]; rfl
    · rw [if_neg h, show max var.yres 1 = var.yres by omega]
  have hpick : ∀ (p l : Nat) (f : Nat → Option fb_var_screeninfo),
      (if p < l then some l else some p).bind f = f (max p l) := by
    intro p l f
    by_cases h : p < l
    · rw [if_pos h, Option.some_bind, show max p l = l by omega]
    · rw [if_neg h, Option.some_bind, show max p l = p by omega]
  simp only [hub12fb_check_var, h1, h2, refresh_to_pixclock]
  cases hk : KHZ2PICOS ((1000 * (((max var.xres 1 + 31) % U32) / 32 * 32 % U32)
          * (((max var.yres 1 + 15) % U32) / 16 * 16 % U32)) % U32) with
  | none => rfl
  | some q =>
    simp only [Option.map_some', Option.some_bind, hpick]
    rfl

/-- C12, at the failing input: for a request of 160 x 16 pixels with pixel clock 0,
`hub12fb_check_var` sets the pixel clock to `1000 * (10^9 / 2560000) = 390000`, the
quotient being cut from 390.625 to 390; `hub12fb_refresh_rate` then gives
`(10^9 / 390) / 2560 = 1001` Hz, and `hub12fb_set_par` sets a scan line period of
`(10^9 / 1001) / 4 = 249750` ns, below 250000 ns. -/
theorem refresh_clamp_misses :
    (hub12fb_check_var { var_zeroed with xres := 160, yres := 16 }).map
      (fun v => (v.xres, v.yres, v.pixclock, hub12fb_refresh_rate v))
      = some (160, 16, 390000, some 1001) ∧
    ((hub12fb_check_var { var_zeroed with xres := 160, yres := 16 }).bind (fun v =>
      hub12fb_set_par (info_of_var v) 100 env_timeout alloc_ok)).map
      (fun r => (r.1, r.2.par.hsync_period)) = some (0, 249750) := by
  decide

/-- For a request of 32000 x 16 pixels with pixel clock 0 the refresh rate after
`hub12fb_check_var` is 1953 Hz. -/
theorem refresh_clamp_long_panel :
    (hub12fb_check_var { var_zeroed with xres := 32000, yres := 16 }).map
      (fun v => (v.pixclock, hub12fb_refresh_rate v)) = some (1000, some 1953) := by
  decide

/-- For the geometry 32 x 16 the clamp does what it is meant to do: whatever the
pixel clock requested, the refresh rate after `hub12fb_check_var`, where it has a
value, is at most 1000 Hz. -/
theorem refresh_clamp_32_16 (var : fb_var_screeninfo) (hx : var.xres = 32)
    (hy : var.yres = 16) :
    ∃ v, hub12fb_check_var var = some v ∧ 1953000 ≤ v.pixclock ∧
      ∀ r, hub12fb_refresh_rate v = some r → r ≤ 1000 := by
  have hk : KHZ2PICOS ((1000 * (((max var.xres 1 + 31) % U32) / 32 * 32 % U32)
          * (((max var.yres 1 + 15) % U32) / 16 * 16 % U32)) % U32) = some 1953 := by
    rw [hx, hy]; decide
  refine ⟨_, by rw [check_var_eq, hk]; rfl, ?_, ?_⟩
  · show 1953000 ≤ max var.pixclock ((1000 * 1953) % U32)
    unfold U32; omega
  · intro r hr
    have hxy : (((max var.xres 1 + 31) % U32) / 32 * 32 % U32)
        * (((max var.yres 1 + 15) % U32) / 16 * 16 % U32) % U32 = 512 := by
      rw [hx, hy]; decide
    have hp : 1953000 ≤ max var.pixclock ((1000 * 1953) % U32) := by unfold U32; omega
    simp only [hub12fb_refresh_rate, check_var_fields, PICOS2KHZ, hxy] at hr
    generalize max var.pixclock ((1000 * 1953) % U32) = p at hp hr
    have hd : 1953 ≤ p / 1000 := by omega
    rw [if_neg (by omega)] at hr
    simp only [Option.some_bind, show ¬ (512 = 0) by decide, if_false,
      Option.some.injEq] at hr
    have h1 : 1000000000 / (p / 1000) ≤ 1000000000 / 1953 :=
      Nat.div_le_div_left hd (by decide)
    omega

/-- C16, at the failing inputs. For 32 x 16 pixels with pixel clock 2000000000,
`hub12fb_check_var` leaves the pixel clock as it is, `hub12fb_refresh_rate` is
`(10^9 / 2000000) / 512 = 0`, and `hub12fb_set_par` does not return: it divides
`NSEC_PER_SEC` by 0. For 1024 x 1024 pixels with pixel clock 0 the limit
`1000 * (10^9 / 1048576000)` is 0, `hub12fb_check_var` leaves the pixel clock 0,
and `PICOS2KHZ(pixclock/1000)` is a division by 0. -/
theorem timing_divides_by_zero :
    (hub12fb_check_var { var_zeroed with xres := 32, yres := 16, pixclock := 2000000000 }).map
      (fun v => (v.xres, v.yres, v.pixclock, hub12fb_refresh_rate v))
      = some (32, 16, 2000000000, some 0) ∧
    (hub12fb_check_var { var_zeroed with xres := 32, yres := 16, pixclock := 2000000000 }).bind
      (fun v => hub12fb_set_par (info_of_var v) 100 env_timeout alloc_ok) = none ∧
    (hub12fb_check_var { var_zeroed with xres := 1024, yres := 1024 }).map
      (fun v => (v.xres, v.yres, v.pixclock, v.pixclock / 1000, hub12fb_refresh_rate v))
      = some (1024, 1024, 0, 0, none) := by
  decide

/-! ## Reconfiguration -/

/-- Allocated memory has the length asked for. -/
theorem alloc_bytes_length (len : Nat) (bytes : List Nat) :
    (alloc_bytes len bytes).length = len := by
  unfold alloc_bytes
  rw [List.length_take, List.length_append, List.length_replicate]
  omega

/-- A list of four entries. -/
theorem list_of_length_four {α : Type} (l : List α) (h : l.length = 4) :
    ∃ a b c d, l = [a, b, c, d] := by
  match l, h with
  | [a, b, c, d], _ => exact ⟨a, b, c, d, rfl⟩

/-- When all four allocations succeed, the loop of `hub12fb_allocate_buffers` fills
the array with four buffers of the length asked for. -/
theorem allocate_hsync_ok (alloc : alloc_env) (len : Nat) (bufs : List (Option (List Nat)))
    (hlen : bufs.length = 4) (hh : ∀ i, i < 4 → ∃ b, alloc.hsync i = some b) :
    ∃ bufs1, allocate_hsync alloc len 4 0 bufs = some bufs1 ∧
      bufs1.map (Option.map List.length) = List.replicate 4 (some len) := by
  obtain ⟨b0, h0⟩ := hh 0 (by decide)
  obtain ⟨b1, h1⟩ := hh 1 (by decide)
  obtain ⟨b2, h2⟩ := hh 2 (by decide)
  obtain ⟨b3, h3⟩ := hh 3 (by decide)
  obtain ⟨a, b, c, d, rfl⟩ := list_of_length_four bufs hlen
  refine ⟨[some (alloc_bytes len b0), some (alloc_bytes len b1), some (alloc_bytes len b2),
    some (alloc_bytes len b3)], ?_, ?_⟩
  · simp [allocate_hsync, h0, h1, h2, h3]
  · simp [alloc_bytes_length]

/-- When one of the four allocations fails, the loop of `hub12fb_allocate_buffers`
leaves by `goto cleanup_buffers`. -/
theorem allocate_hsync_fails (alloc : alloc_env) (len : Nat) :
    ∀ (n i : Nat) (bufs : List (Option (List Nat))),
      (∃ k, i ≤ k ∧ k < i + n ∧ alloc.hsync k = none) →
      allocate_hsync alloc len n i bufs = none := by
  intro n
  induction n with
  | zero => intro i bufs ⟨k, h1, h2, _⟩; omega
  | succ n ih =>
    intro i bufs ⟨k, h1, h2, h3⟩
    unfold allocate_hsync
    cases hi : alloc.hsync i with
    | none => rfl
    | some bytes =>
      simp only []
      apply ih
      refine ⟨k, ?_, by omega, h3⟩
      by_contra hlt
      have hk : k = i := by omega
      rw [hk, hi] at h3
      cases h3

/-- The default configuration of `hub12fb_probe`, after `hub12fb_check_var`. -/
theorem info_default_eq : info_default = some (info_of_var var_32_16) := by
  decide

/-- The frame converter writes the scan buffers, `i_scan`, `vsync_flag` and the
trace only. -/
theorem do_vsync_setup (p q : hub12_par) (h : do_vsync p = some q) : same_setup p q := by
  unfold do_vsync at h
  obtain ⟨bufs, _, h⟩ := Option.bind_eq_some.mp h
  simp only [Option.some.injEq] at h
  rw [← h]
  exact ⟨rfl, rfl, rfl, rfl, rfl, rfl, rfl⟩

/-- The completion handler leaves the setup and the running flag as they are. -/
theorem completion_setup (p q : hub12_par) (h : shift_scanline_completion p = some q) :
    same_setup p q ∧ q.running = p.running := by
  have hab : ∃ a b, index_int avals p.i_scan = some a ∧ index_int bvals p.i_scan = some b := by
    have h2 := h
    unfold shift_scanline_completion at h2
    obtain ⟨a, ha, h2⟩ := Option.bind_eq_some.mp h2
    obtain ⟨b, hb, _⟩ := Option.bind_eq_some.mp h2
    exact ⟨a, b, ha, hb⟩
  obtain ⟨a, b, ha, hb⟩ := hab
  by_cases h3 : p.i_scan = 3
  · rw [completion_wrap p h3] at h
    obtain ⟨p2, h2, h⟩ := Option.bind_eq_some.mp h
    simp only [Option.some.injEq] at h
    have hs := do_vsync_setup _ _ h2
    unfold do_vsync at h2
    obtain ⟨bufs, _, h4⟩ := Option.bind_eq_some.mp h2
    simp only [Option.some.injEq] at h4
    rw [← h]
    refine ⟨hs, ?_⟩
    rw [← h4]
  · have h4 : p.i_scan + 1 ≠ 4 := by omega
    rw [completion_step p a b ha hb h4] at h
    simp only [Option.some.injEq] at h
    rw [← h]
    exact ⟨⟨rfl, rfl, rfl, rfl, rfl, rfl, rfl⟩, rfl⟩

/-- Whenever `hub12fb_stop_running` returns, the engine is stopped and the setup is
as it was. -/
theorem stop_running_setup (p q : hub12_par) (env : wait_env)
    (h : hub12fb_stop_running p env = some q) : same_setup p q ∧ q.running = false := by
  unfold hub12fb_stop_running at h
  by_cases hr : p.running = true
  · rw [if_pos hr] at h
    obtain ⟨r, hw, h⟩ := Option.bind_eq_some.mp h
    simp only [Option.some.injEq] at h
    rw [← h]
    unfold wait_for_vsync at hw
    obtain ⟨p2, h2, hw⟩ := Option.bind_eq_some.mp hw
    have hp2 : same_setup p p2 ∧ p2.running = false := by
      by_cases hc : p.hsync_running = true ∧ env.spi_completes = true
      · rw [if_pos hc] at h2
        exact completion_setup { p with
          running := false, vsync_flag := false,
          trace := p.trace ++
            [hw_event.hrtimer_cancel timer_id.hsync_timer,
             hw_event.hrtimer_cancel timer_id.ledon_timer] } p2 h2
      · rw [if_neg hc] at h2
        simp only [Option.some.injEq] at h2
        rw [← h2]
        exact ⟨⟨rfl, rfl, rfl, rfl, rfl, rfl, rfl⟩, rfl⟩
    split at hw
    · simp only [Option.some.injEq] at hw; rw [← hw]; exact hp2
    · split at hw <;> (simp only [Option.some.injEq] at hw; rw [← hw]; exact hp2)
  · rw [if_neg hr] at h
    simp only [Option.some.injEq] at h
    rw [← h]
    exact ⟨⟨rfl, rfl, rfl, rfl, rfl, rfl, rfl⟩, by simpa using hr⟩

/-- Four stores of NULL into an array of four pointers. -/
theorem set_all_none (l : List (Option (List Nat))) (h : l.length = 4) :
    (((l.set 0 none).set 1 none).set 2 none).set 3 none = [none, none, none, none] := by
  obtain ⟨a, b, c, d, rfl⟩ := list_of_length_four l h
  rfl

/-- On a stopped state `hub12fb_free_buffers` only releases the buffers. -/
theorem free_buffers_stopped (par : hub12_par) (env : wait_env) (hr : par.running = false)
    (hlen : par.hsync_buf.length = 4) :
    hub12fb_free_buffers par env = some { par with
      hsync_buf := [none, none, none, none], fb_buffer := none } := by
  have hstop : hub12fb_stop_running par env = some par := by
    unfold hub12fb_stop_running
    rw [if_neg (by rw [hr]; exact Bool.false_ne_true)]
  unfold hub12fb_free_buffers
  rw [hstop, Option.some_bind, set_all_none _ hlen]

/-- After `clear_old_buffers` a stopped state holds no buffer. -/
theorem clear_old_buffers_stopped (par : hub12_par) (env : wait_env)
    (hr : par.running = false) (hlen : par.hsync_buf.length = 4)
    (hnone : par.fb_buffer = none → par.hsync_buf = [none, none, none, none]) :
    clear_old_buffers par env = some { par with
      hsync_buf := [none, none, none, none], fb_buffer := none } := by
  unfold clear_old_buffers
  cases hfb : par.fb_buffer with
  | none =>
    have hb := hnone hfb
    rw [if_neg (by simp)]
    congr 1
    cases par
    simp only [hub12_par.mk.injEq, true_and, and_true] at *
    exact ⟨hfb, hb⟩
  | some fb =>
    rw [if_pos (by simp)]
    exact free_buffers_stopped par env hr hlen

/-- `hub12fb_allocate_buffers` when `kzalloc` of the bitmap fails. -/
theorem allocate_buffers_no_bitmap (par : hub12_par) (alloc : alloc_env) (env : wait_env)
    (hfb : alloc.fb = false) :
    hub12fb_allocate_buffers par alloc env = some (-ENOMEM, { par with fb_buffer := none }) := by
  unfold hub12fb_allocate_buffers
  simp only [hfb, if_true]

/-- `hub12fb_allocate_buffers` on a stopped state when the allocation of a scan
buffer fails: everything allocated so far is released. -/
theorem allocate_buffers_no_scan_buffer (par : hub12_par) (alloc : alloc_env) (env : wait_env)
    (hfb : alloc.fb = true) (hk : ∃ k, k < 4 ∧ alloc.hsync k = none)
    (hr : par.running = false) (hlen : par.hsync_buf.length = 4) :
    hub12fb_allocate_buffers par alloc env = some (-ENOMEM, { par with
      fb_buffer := none, hsync_buf := [none, none, none, none],
      hsync_length := (par.pdata.width / 8 * par.pdata.height) % U32 / 4 }) := by
  obtain ⟨k, hk4, hkn⟩ := hk
  have hloop : allocate_hsync alloc ((par.pdata.width / 8 * par.pdata.height) % U32 / 4) 4 0
      par.hsync_buf = none :=
    allocate_hsync_fails alloc _ 4 0 _ ⟨k, Nat.zero_le _, by omega, hkn⟩
  unfold hub12fb_allocate_buffers
  simp only [hfb, Bool.true_eq_false, if_false, hloop]
  have hfree := free_buffers_stopped { par with
    fb_buffer := some (List.replicate ((par.pdata.width / 8 * par.pdata.height) % U32) 0),
    hsync_length := (par.pdata.width / 8 * par.pdata.height) % U32 / 4 } env hr hlen
  rw [hfree]
  rfl

/-- `hub12fb_allocate_buffers` when every allocation succeeds: a zeroed bitmap of
`bsize` bytes and four scan buffers of `bsize / 4` bytes. -/
theorem allocate_buffers_ok (par : hub12_par) (alloc : alloc_env) (env : wait_env)
    (hfb : alloc.fb = true) (hh : ∀ i, i < 4 → ∃ b, alloc.hsync i = some b)
    (hlen : par.hsync_buf.length = 4) :
    ∃ bufs, hub12fb_allocate_buffers par alloc env = some (0, { par with
        fb_buffer := some (List.replicate ((par.pdata.width / 8 * par.pdata.height) % U32) 0),
        hsync_length := (par.pdata.width / 8 * par.pdata.height) % U32 / 4,
        hsync_buf := bufs }) ∧
      bufs.map (Option.map List.length) = List.replicate 4
        (some ((par.pdata.width / 8 * par.pdata.height) % U32 / 4)) := by
  obtain ⟨bufs, ha, hl⟩ := allocate_hsync_ok alloc
    ((par.pdata.width / 8 * par.pdata.height) % U32 / 4) par.hsync_buf hlen hh
  refine ⟨bufs, ?_, hl⟩
  unfold hub12fb_allocate_buffers
  simp only [hfb, Bool.true_eq_false, if_false, ha]

/-- The first half of `hub12fb_set_par` as the sequence of its four steps. -/
theorem set_par_buffers_eq (info : fb_info) (env : wait_env) (alloc : alloc_env)
    (par1 par3 par4 : hub12_par) (r : Int × hub12_par)
    (h1 : hub12fb_stop_running info.par env = some par1)
    (h2 : clear_old_buffers { par1 with
        pdata := { par1.pdata with width := info.var.xres, height := info.var.yres } }
      env = some par3)
    (h3 : hub12fb_allocate_buffers par3 alloc env = some r)
    (h4 : copy_test_pattern r.2 = some par4) :
    set_par_buffers info env alloc = some (r.1, par4) := by
  unfold set_par_buffers
  rw [h1, Option.some_bind, h2, Option.some_bind, h3, Option.some_bind, h4, Option.some_bind]

/-- From a stopped state with allocated buffers `hub12fb_start_running` returns a
running state with the same setup. -/
theorem start_running_stopped (par : hub12_par) (hok : par_ok par)
    (hr : par.running = false) :
    ∃ q, hub12fb_start_running par = some q ∧ same_setup par q ∧ q.running = true := by
  obtain ⟨fb, bufs, _, hdo, _, _⟩ := do_vsync_ok par hok
  unfold hub12fb_start_running
  rw [if_neg (by rw [hr]; exact Bool.false_ne_true), hdo, Option.some_bind]
  exact ⟨_, rfl, ⟨rfl, rfl, rfl, rfl, rfl, rfl, rfl⟩, rfl⟩

/-- The second half of `hub12fb_set_par` on a stopped state with allocated buffers
and a refresh rate other than 0: the periods are set from the refresh rate and the
engine runs exactly when the display is not blanked. -/
theorem set_par_timing_ok (var : fb_var_screeninfo) (par : hub12_par) (HZ refresh : Nat)
    (hrate : hub12fb_refresh_rate var = some refresh) (h0 : refresh ≠ 0)
    (hok : par_ok par) (hr : par.running = false) :
    ∃ q, set_par_timing var par HZ = some q ∧
      q.pdata = par.pdata ∧ q.fb_buffer = par.fb_buffer ∧
      q.hsync_length = par.hsync_length ∧ q.blank = par.blank ∧
      q.hsync_period = ((NSEC_PER_SEC / refresh / 4 : Nat) : Int) ∧
      q.vsync_timeout = ((2 * HZ / refresh : Nat) : Int) ∧
      (q.running = true ↔ par.blank = FB_BLANK_UNBLANK) := by
  unfold set_par_timing
  rw [hrate, Option.some_bind, if_neg h0]
  by_cases hb : par.blank = FB_BLANK_UNBLANK
  · have hok5 : par_ok (hub12fb_set_brightness { par with
        hsync_period := ((NSEC_PER_SEC / refresh / 4 : Nat) : Int),
        vsync_timeout := ((2 * HZ / refresh : Nat) : Int) }) := hok
    obtain ⟨q, hq, ⟨e1, e2, e3, e4, _, e6, e7⟩, hrun⟩ := start_running_stopped _ hok5 hr
    refine ⟨q, ?_, e1, e2, e3, e7, e4, e6, ?_⟩
    · show (if par.blank = FB_BLANK_UNBLANK then _ else _) = _
      rw [if_pos hb]; exact hq
    · exact ⟨fun _ => hb, fun _ => hrun⟩
  · refine ⟨hub12fb_set_brightness { par with
        hsync_period := ((NSEC_PER_SEC / refresh / 4 : Nat) : Int),
        vsync_timeout := ((2 * HZ / refresh : Nat) : Int) }, ?_, rfl, rfl, rfl, rfl, rfl, rfl, ?_⟩
    · show (if par.blank = FB_BLANK_UNBLANK then _ else _) = _
      rw [if_neg hb]
    · constructor
      · intro h
        have h2 : par.running = true := h
        rw [hr] at h2; exact absurd h2 Bool.false_ne_true
      · intro h; exact absurd h hb

/-- The function `hub12fb_start_running` leaves the scan line period as it is. -/
theorem start_running_period (p q : hub12_par) (h : hub12fb_start_running p = some q) :
    q.hsync_period = p.hsync_period := by
  unfold hub12fb_start_running at h
  by_cases hr : p.running = true
  · rw [if_pos hr] at h
    simp only [Option.some.injEq] at h
    rw [← h]
  · rw [if_neg hr] at h
    obtain ⟨p1, hv, h⟩ := Option.bind_eq_some.mp h
    simp only [Option.some.injEq] at h
    rw [← h]
    exact (do_vsync_setup p p1 hv).2.2.2.1

/-- Whenever the second half of `hub12fb_set_par` returns, the scan line period it
leaves is `stored_period refresh` for the refresh rate of `var`, which is not 0. -/
theorem set_par_timing_period (var : fb_var_screeninfo) (par q : hub12_par) (HZ : Nat)
    (h : set_par_timing var par HZ = some q) :
    ∃ refresh, hub12fb_refresh_rate var = some refresh ∧ refresh ≠ 0 ∧
      q.hsync_period = stored_period refresh := by
  unfold set_par_timing at h
  obtain ⟨refresh, hr, h⟩ := Option.bind_eq_some.mp h
  by_cases h0 : refresh = 0
  · rw [if_pos h0] at h
    exact absurd h (by simp)
  · rw [if_neg h0] at h
    refine ⟨refresh, hr, h0, ?_⟩
    by_cases hb : (hub12fb_set_brightness { par with
        hsync_period := ((NSEC_PER_SEC / refresh / 4 : Nat) : Int),
        vsync_timeout := ((2 * HZ / refresh : Nat) : Int) }).blank = FB_BLANK_UNBLANK
    · simp only [if_pos hb] at h
      rw [start_running_period _ _ h]
      rfl
    · simp only [if_neg hb, Option.some.injEq] at h
      rw [← h]
      rfl

/-- C13 (scenario 32 x 16 at 60 Hz): `hub12fb_probe` with `default_platform_data`
hands `hub12fb_set_par` the geometry 32 x 16 and the pixel clock
`refresh_to_pixclock(60) = 32552000`, from which `hub12fb_refresh_rate` recovers
exactly 60; whenever the allocations succeed, `hub12fb_set_par` returns 0 with
`line_length = 4`, `smem_len = 64`, `hsync_length = 16`, the test pattern in the
bitmap, `hsync_period = floor(10^9 / (60 * 4)) = 4166666` ns and the engine
running. -/
theorem scenario_32_16 (HZ : Nat) (env : wait_env) (alloc : alloc_env)
    (hfb : alloc.fb = true) (hh : ∀ i, i < 4 → ∃ b, alloc.hsync i = some b) :
    info_default = some (info_of_var var_32_16) ∧
    var_32_16.xres = 32 ∧ var_32_16.yres = 16 ∧
    refresh_to_pixclock 60 var_32_16 = some var_32_16.pixclock ∧
    hub12fb_refresh_rate var_32_16 = some 60 ∧
    ∃ r, hub12fb_set_par (info_of_var var_32_16) HZ env alloc = some (0, r) ∧
      r.var = var_32_16 ∧
      r.fix.line_length = 4 ∧ r.fix.smem_len = 64 ∧ r.par.hsync_length = 16 ∧
      r.par.fb_buffer = some test_pattern_32_16 ∧
      r.par.hsync_period = 1000000000 / (60 * 4) ∧ r.par.hsync_period = 4166666 ∧
      r.par.running = true := by
  have hrate : hub12fb_refresh_rate var_32_16 = some 60 := by decide
  refine ⟨info_default_eq, rfl, rfl, by decide, hrate, ?_⟩
  obtain ⟨bufs, halloc, hl⟩ :=
    allocate_buffers_ok (par_zeroed default_platform_data) alloc env hfb hh rfl
  have hb : set_par_buffers (info_of_var var_32_16) env alloc = some (0,
      { par_zeroed default_platform_data with
        fb_buffer := some test_pattern_32_16, hsync_length := 16, hsync_buf := bufs }) :=
    set_par_buffers_eq (info_of_var var_32_16) env alloc (par_zeroed default_platform_data)
      (par_zeroed default_platform_data) _ _ rfl rfl halloc rfl
  have hok : par_ok { par_zeroed default_platform_data with
      fb_buffer := some test_pattern_32_16, hsync_length := 16, hsync_buf := bufs } :=
    ⟨⟨by show Option.map List.length (some test_pattern_32_16) = some (32 / 8 * 16); decide,
      by show 16 = 32 / 8 * 16 / 4; decide, hl⟩,
     by show 32 / 8 ≤ 65535 ∧ 16 / 16 ≤ 65535 ∧ 32 / 8 * 16 ≤ 2 ^ 31; decide⟩
  obtain ⟨q, hq, e1, e2, e3, e4, e5, _, e7⟩ :=
    set_par_timing_ok var_32_16 _ HZ 60 hrate (by decide) hok rfl
  refine ⟨{ info_of_var var_32_16 with
      fix := { smem_len := (32 * 16) % U32 / 8, line_length := 32 / 8 }, par := q },
    ?_, rfl, by show 32 / 8 = 4; decide, by show (32 * 16) % U32 / 8 = 64; decide, e3, e2,
    ?_, ?_, e7.mpr rfl⟩
  · unfold hub12fb_set_par
    rw [hb, Option.some_bind, if_neg (fun h => h rfl)]
    show (set_par_timing var_32_16 _ HZ).bind _ = _
    rw [hq, Option.some_bind]
    rfl
  · rw [e5]; rfl
  · rw [e5]; rfl

/-- C13 at the allocators `alloc_ok`, a timeout in the sleep and `HZ = 100`. -/
theorem scenario_32_16_witness :
    info_default = some (info_of_var var_32_16) ∧
    var_32_16.xres = 32 ∧ var_32_16.yres = 16 ∧
    refresh_to_pixclock 60 var_32_16 = some var_32_16.pixclock ∧
    hub12fb_refresh_rate var_32_16 = some 60 ∧
    ∃ r, hub12fb_set_par (info_of_var var_32_16) 100 env_timeout alloc_ok = some (0, r) ∧
      r.var = var_32_16 ∧
      r.fix.line_length = 4 ∧ r.fix.smem_len = 64 ∧ r.par.hsync_length = 16 ∧
      r.par.fb_buffer = some test_pattern_32_16 ∧
      r.par.hsync_period = 1000000000 / (60 * 4) ∧ r.par.hsync_period = 4166666 ∧
      r.par.running = true :=
  scenario_32_16 100 env_timeout alloc_ok rfl (fun _ _ => ⟨[], rfl⟩)

/-- C15, counterexample: the device configured by `hub12fb_probe` for 32 x 16
pixels is running and holds its bitmap; a reconfiguration to 64 x 16 pixels (a
geometry `hub12fb_check_var` accepts) in which the allocation of the bitmap fails
returns `-ENOMEM` and leaves the engine stopped, with width 64, no bitmap and no
scan buffer. -/
theorem set_par_failure_not_atomic :
    hub12fb_check_var var_64_16 = some var_64_16 ∧
    reconfigure_fails.map (fun t => t.2.1) = some (-ENOMEM) ∧
    reconfigure_fails.map (fun t => (t.1.par.running, t.2.2.par.running)) =
      some (true, false) ∧
    reconfigure_fails.map (fun t => (t.1.par.pdata.width, t.2.2.par.pdata.width)) =
      some (32, 64) ∧
    reconfigure_fails.map (fun t => (t.1.par.fb_buffer, t.2.2.par.fb_buffer)) =
      some (some test_pattern_32_16, none) ∧
    reconfigure_fails.map (fun t => t.2.2.par.hsync_buf) =
      some [none, none, none, none] := by
  decide

/-- The first half of `hub12fb_set_par` when an allocation fails, for a geometry
other than 32 x 16 and a state in which `hub12fb_stop_running` has returned `par1`:
the return value is `-ENOMEM`, the new geometry is stored and no buffer is left. -/
theorem set_par_buffers_fails (info : fb_info) (env : wait_env) (alloc : alloc_env)
    (par1 : hub12_par) (hstop : hub12fb_stop_running info.par env = some par1)
    (hr : par1.running = false) (hlen : par1.hsync_buf.length = 4)
    (hnone : par1.fb_buffer = none → par1.hsync_buf = [none, none, none, none])
    (hfail : alloc.fb = false ∨ ∃ k, k < 4 ∧ alloc.hsync k = none)
    (hgeo : ¬(info.var.xres = 32 ∧ info.var.yres = 16)) :
    ∃ len, set_par_buffers info env alloc = some (-ENOMEM, { par1 with
      pdata := { par1.pdata with width := info.var.xres, height := info.var.yres },
      fb_buffer := none, hsync_buf := [none, none, none, none], hsync_length := len }) := by
  have h2 := clear_old_buffers_stopped { par1 with
    pdata := { par1.pdata with width := info.var.xres, height := info.var.yres } } env hr hlen hnone
  by_cases hfb : alloc.fb = false
  · refine ⟨par1.hsync_length, ?_⟩
    exact set_par_buffers_eq info env alloc par1 _ _ _ hstop h2
      (allocate_buffers_no_bitmap _ alloc env hfb)
      (by unfold copy_test_pattern; rw [if_neg hgeo])
  · have hfb1 : alloc.fb = true := by
      cases h : alloc.fb with
      | false => exact absurd h hfb
      | true => rfl
    have hk : ∃ k, k < 4 ∧ alloc.hsync k = none := by
      cases hfail with
      | inl h => exact absurd h hfb
      | inr h => exact h
    refine ⟨(info.var.xres / 8 * info.var.yres) % U32 / 4, ?_⟩
    exact set_par_buffers_eq info env alloc par1 _ _ _ hstop h2
      (allocate_buffers_no_scan_buffer _ alloc env hfb1 hk hr rfl)
      (by unfold copy_test_pattern; rw [if_neg hgeo])

/-- C15, as amended: `hub12fb_set_par` is called on a state that has never been
configured or on one with allocated buffers, for a geometry other than 32 x 16,
and an allocation fails. Then it returns `-ENOMEM`; `var`, `fix`, the three timing
parameters and the blank mode are as they were; the engine is stopped, the
requested width and height are stored, and the bitmap and all four scan buffers
are released. -/
theorem set_par_alloc_failure (info : fb_info) (HZ : Nat) (env : wait_env) (alloc : alloc_env)
    (hcfg : par_fresh info.par ∨ (par_ok info.par ∧ i_scan_ok info.par))
    (hfail : alloc.fb = false ∨ ∃ k, k < 4 ∧ alloc.hsync k = none)
    (hgeo : ¬(info.var.xres = 32 ∧ info.var.yres = 16)) :
    ∃ r, hub12fb_set_par info HZ env alloc = some (-ENOMEM, r) ∧
      r.var = info.var ∧ r.fix = info.fix ∧
      r.par.hsync_period = info.par.hsync_period ∧
      r.par.ledon_period = info.par.ledon_period ∧
      r.par.vsync_timeout = info.par.vsync_timeout ∧
      r.par.blank = info.par.blank ∧
      r.par.running = false ∧
      r.par.pdata = { info.par.pdata with width := info.var.xres, height := info.var.yres } ∧
      r.par.fb_buffer = none ∧
      r.par.hsync_buf = [none, none, none, none] := by
  have hstop : ∃ par1, hub12fb_stop_running info.par env = some par1 ∧
      par1.hsync_buf.length = 4 ∧
      (par1.fb_buffer = none → par1.hsync_buf = [none, none, none, none]) := by
    cases hcfg with
    | inl hf =>
      obtain ⟨hr, _, hb⟩ := hf
      refine ⟨info.par, ?_, by rw [hb]; rfl, fun _ => hb⟩
      unfold hub12fb_stop_running
      rw [if_neg (by rw [hr]; exact Bool.false_ne_true)]
    | inr hk =>
      obtain ⟨par1, h1, hok1⟩ := engine_step_ok (engine_op.stop env) info.par hk.1 hk.2
      obtain ⟨fb, hfb, _⟩ := allocated_fb par1 hok1.1
      refine ⟨par1, h1, (allocated_bufs par1 hok1.1).1, ?_⟩
      intro h; rw [hfb] at h; exact absurd h (by simp)
  obtain ⟨par1, h1, hlen, hnone⟩ := hstop
  obtain ⟨⟨e1, _, _, e4, e5, e6, e7⟩, hr⟩ := stop_running_setup info.par par1 env h1
  obtain ⟨len, hb⟩ := set_par_buffers_fails info env alloc par1 h1 hr hlen hnone hfail hgeo
  refine ⟨{ info with par := { par1 with
      pdata := { par1.pdata with width := info.var.xres, height := info.var.yres },
      fb_buffer := none, hsync_buf := [none, none, none, none], hsync_length := len } },
    ?_, rfl, rfl, e4, e5, e6, e7, hr, ?_, rfl, rfl⟩
  · unfold hub12fb_set_par
    rw [hb, Option.some_bind, if_pos (show (-ENOMEM : Int) ≠ 0 by decide)]
  · show ({ par1.pdata with width := info.var.xres, height := info.var.yres } :
      hub12fb_platform_data) = _
    rw [e1]

/-- C15, as amended, at a running 32 x 16 engine that is asked for 64 x 16 pixels
while the allocation of the bitmap fails. -/
theorem set_par_alloc_failure_witness :
    (par_fresh info_running.par ∨ (par_ok info_running.par ∧ i_scan_ok info_running.par)) ∧
    (alloc_fails.fb = false ∨ ∃ k, k < 4 ∧ alloc_fails.hsync k = none) ∧
    ¬(info_running.var.xres = 32 ∧ info_running.var.yres = 16) ∧
    ∃ r, hub12fb_set_par info_running 100 env_timeout alloc_fails = some (-ENOMEM, r) ∧
      r.var = info_running.var ∧ r.fix = info_running.fix ∧
      r.par.hsync_period = info_running.par.hsync_period ∧
      r.par.ledon_period = info_running.par.ledon_period ∧
      r.par.vsync_timeout = info_running.par.vsync_timeout ∧
      r.par.blank = info_running.par.blank ∧
      r.par.running = false ∧
      r.par.pdata = { info_running.par.pdata with
        width := info_running.var.xres, height := info_running.var.yres } ∧
      r.par.fb_buffer = none ∧
      r.par.hsync_buf = [none, none, none, none] :=
  ⟨Or.inr (by decide), Or.inl rfl, by decide,
   set_par_alloc_failure info_running 100 env_timeout alloc_fails
     (Or.inr (by decide)) (Or.inl rfl) (by decide)⟩

/-- A digit is neither `'@'` nor `'x'`. -/
theorem digit_ne (c : Char) (h : is_digit c) : c ≠ '@' ∧ c ≠ 'x' := by
  constructor
  · intro hc; subst hc; exact absurd h (by decide)
  · intro hc; subst hc; exact absurd h (by decide)

/-- The loop of `hub12fb_modestr_to_var` walks over digits without a change of the
variables. -/
theorem scan_digits (left : List Char) (st : modestr_state) :
    ∀ (rs right : List Char), all_digits rs →
      modestr_scan (rs ++ left) right st = modestr_scan left (rs.reverse ++ right) st := by
  intro rs
  induction rs with
  | nil => intro right _; rfl
  | cons c rs ih =>
    intro right h
    have hc : is_digit c := h c (List.mem_cons_self c rs)
    obtain ⟨h1, h2⟩ := digit_ne c hc
    have hrs : all_digits rs := fun d hd => h d (List.mem_cons_of_mem c hd)
    show modestr_scan (c :: (rs ++ left)) right st = _
    rw [modestr_scan, if_neg h1, if_neg h2, if_pos hc, ih (c :: right) hrs,
      List.reverse_cons, List.append_assoc]
    rfl

/-- The function `strtol_digits` reads the digits up to the first character that
is none. -/
theorem strtol_digits_append (rest : List Char)
    (hrest : ∀ c r, rest = c :: r → ¬ is_digit c) :
    ∀ (ds : List Char) (acc : Nat), all_digits ds →
      strtol_digits (ds ++ rest) acc = strtol_digits ds acc := by
  intro ds
  induction ds with
  | nil =>
    intro acc _
    cases rest with
    | nil => rfl
    | cons c r =>
      show strtol_digits (c :: r) acc = acc
      rw [strtol_digits, if_neg (hrest c r rfl)]
  | cons d ds ih =>
    intro acc h
    have hd : is_digit d := h d (List.mem_cons_self d ds)
    have hds : all_digits ds := fun e he => h e (List.mem_cons_of_mem d he)
    show strtol_digits (d :: (ds ++ rest)) acc = strtol_digits (d :: ds) acc
    rw [strtol_digits, strtol_digits, if_pos hd, if_pos hd, ih _ hds]

/-- The function `simple_strtol` on digits followed by a character that is no
digit. -/
theorem simple_strtol_field (ds : List Char) (c : Char) (r : List Char)
    (h : all_digits ds) (hc : ¬ is_digit c) :
    simple_strtol (ds ++ c :: r) = simple_strtol ds := by
  unfold simple_strtol
  apply strtol_digits_append (c :: r) _ ds 0 h
  intro c1 r1 he
  injection he with he1 _
  rw [← he1]; exact hc

/-- For a string that fits an `int`, the loop of `hub12fb_modestr_to_var` scans the
whole string from its last character on. -/
theorem modestr_to_var_eq (name : List Char) (var : fb_var_screeninfo)
    (hlen : name.length ≤ 2 ^ 31) :
    hub12fb_modestr_to_var (some name) var =
      modestr_apply (modestr_scan name.reverse [] modestr_init).1
        (if (modestr_scan name.reverse [] modestr_init).2 = true ∧
            (modestr_scan name.reverse [] modestr_init).1.yres_specified = true
          then some (simple_strtol name % U32) else none) var := by
  have hmod : name.length % U32 = name.length := by
    apply Nat.mod_eq_of_lt; unfold U32; omega
  cases name with
  | nil => rfl
  | cons c cs =>
    have h0 : 0 ≤ to_s32 (((c :: cs).length : Int) - 1) := by
      unfold to_s32
      have : 1 ≤ (c :: cs).length := by simp
      omega
    unfold hub12fb_modestr_to_var
    simp only [hmod, if_pos h0, List.take_length, List.drop_length]

/-- The turn of the loop at an `'@'` while no field has been parsed. -/
theorem scan_at (left right : List Char) (r y : Nat) :
    modestr_scan ('@' :: left) right
        { refresh := r, yres := y, refresh_specified := false, yres_specified := false } =
      modestr_scan left ('@' :: right)
        { refresh := simple_strtol right % U32, yres := y, refresh_specified := true,
          yres_specified := false } := by
  rw [modestr_scan, if_pos rfl, if_pos ⟨rfl, rfl⟩]

/-- The turn of the loop at an `'x'` while `yres` has not been parsed. -/
theorem scan_x (left right : List Char) (r y : Nat) (rs : Bool) :
    modestr_scan ('x' :: left) right
        { refresh := r, yres := y, refresh_specified := rs, yres_specified := false } =
      modestr_scan left ('x' :: right)
        { refresh := r, yres := simple_strtol right % U32, refresh_specified := rs,
          yres_specified := true } := by
  rw [modestr_scan, if_neg (by decide), if_pos rfl, if_pos rfl]

/-- The reverse of a string of digits is a string of digits. -/
theorem all_digits_reverse (l : List Char) (h : all_digits l) : all_digits l.reverse :=
  fun c hc => h c (List.mem_reverse.mp hc)

/-- The loop on `"XxY@R"`: both fields are parsed and the loop runs to its end. -/
theorem scan_full (dx dy dr : List Char) (hx : all_digits dx) (hy : all_digits dy)
    (hr : all_digits dr) :
    modestr_scan (dx ++ 'x' :: (dy ++ '@' :: dr)).reverse [] modestr_init =
      ({ refresh := simple_strtol dr % U32, yres := simple_strtol dy % U32,
         refresh_specified := true, yres_specified := true }, true) := by
  have hrev : (dx ++ 'x' :: (dy ++ '@' :: dr)).reverse =
      dr.reverse ++ '@' :: (dy.reverse ++ 'x' :: (dx.reverse ++ [])) := by
    simp
  rw [hrev, scan_digits _ _ _ _ (all_digits_reverse dr hr), List.reverse_reverse]
  unfold modestr_init
  rw [scan_at, scan_digits _ _ _ _ (all_digits_reverse dy hy), List.reverse_reverse, scan_x,
    scan_digits _ _ _ _ (all_digits_reverse dx hx), modestr_scan, List.append_nil,
    simple_strtol_field dy '@' dr hy (by decide)]

/-- The loop on `"XxY"`: `yres` is parsed, `refresh` is not. -/
theorem scan_geometry (dx dy : List Char) (hx : all_digits dx) (hy : all_digits dy) :
    modestr_scan (dx ++ 'x' :: dy).reverse [] modestr_init =
      ({ refresh := 60, yres := simple_strtol dy % U32, refresh_specified := false,
         yres_specified := true }, true) := by
  have hrev : (dx ++ 'x' :: dy).reverse = dy.reverse ++ 'x' :: (dx.reverse ++ []) := by
    simp
  rw [hrev, scan_digits _ _ _ _ (all_digits_reverse dy hy), List.reverse_reverse]
  unfold modestr_init
  rw [scan_x, scan_digits _ _ _ _ (all_digits_reverse dx hx), modestr_scan, List.append_nil]

/-- The loop on `"@R"`: `refresh` is parsed, `yres` is not. -/
theorem scan_refresh (dr : List Char) (hr : all_digits dr) :
    modestr_scan ('@' :: dr).reverse [] modestr_init =
      ({ refresh := simple_strtol dr % U32, yres := 16, refresh_specified := true,
         yres_specified := false }, true) := by
  have hrev : ('@' :: dr).reverse = dr.reverse ++ '@' :: [] := by simp
  rw [hrev, scan_digits _ _ _ _ (all_digits_reverse dr hr), List.reverse_reverse]
  unfold modestr_init
  rw [scan_at, modestr_scan, List.append_nil]

/-- The loop leaves the variables as they are when it meets neither `'x'` nor
`'@'`. -/
theorem scan_no_field (st : modestr_state) :
    ∀ (left right : List Char), (∀ c ∈ left, c ≠ 'x' ∧ c ≠ '@') →
      (modestr_scan left right st).1 = st := by
  intro left
  induction left with
  | nil => intro right _; rfl
  | cons c left ih =>
    intro right h
    obtain ⟨h1, h2⟩ := h c (List.mem_cons_self c left)
    rw [modestr_scan, if_neg h2, if_neg h1]
    by_cases hd : is_digit c
    · rw [if_pos hd]
      exact ih (c :: right) (fun d hd => h d (List.mem_cons_of_mem c hd))
    · rw [if_neg hd]

/-- A character that stops the loop cuts the string: the variables are those of
the loop on the part to its right, and the loop has left by `goto done`. -/
theorem scan_stopped (c : Char) (rest : List Char) :
    ∀ (sr right : List Char) (st : modestr_state),
      ((modestr_scan sr right st).2 = false ∨ scan_stops c (modestr_scan sr right st).1) →
      modestr_scan (sr ++ c :: rest) right st = ((modestr_scan sr right st).1, false) := by
  intro sr
  induction sr with
  | nil =>
    intro right st h
    have hs : scan_stops c st := by
      cases h with
      | inl h => exact absurd h (by simp [modestr_scan])
      | inr h => exact h
    show modestr_scan (c :: rest) right st = (st, false)
    rw [modestr_scan]
    rcases hs with ⟨hc, hf⟩ | ⟨hc, hf⟩ | ⟨h1, h2, h3⟩
    · rw [if_pos hc, if_neg]
      intro ⟨ha, hb⟩
      cases hf with
      | inl hf => rw [ha] at hf; exact absurd hf (by decide)
      | inr hf => rw [hb] at hf; exact absurd hf (by decide)
    · have hne : c ≠ '@' := by rw [hc]; decide
      rw [if_neg hne, if_pos hc, if_neg]
      intro hb; rw [hb] at hf; exact absurd hf (by decide)
    · rw [if_neg h1, if_neg h2, if_neg h3]
  | cons d sr ih =>
    intro right st h
    show modestr_scan (d :: (sr ++ c :: rest)) right st = _
    by_cases h1 : d = '@'
    · by_cases h2 : st.refresh_specified = false ∧ st.yres_specified = false
      · have ea : ∀ l, modestr_scan (d :: l) right st = modestr_scan l (d :: right)
            { st with refresh := simple_strtol right % U32, refresh_specified := true } :=
          fun l => by rw [modestr_scan, if_pos h1, if_pos h2]
        rw [ea] at h
        rw [ea, ea]
        exact ih _ _ h
      · have ea : ∀ l, modestr_scan (d :: l) right st = (st, false) :=
          fun l => by rw [modestr_scan, if_pos h1, if_neg h2]
        rw [ea, ea]
    · by_cases h2 : d = 'x'
      · by_cases h3 : st.yres_specified = false
        · have ea : ∀ l, modestr_scan (d :: l) right st = modestr_scan l (d :: right)
              { st with yres := simple_strtol right % U32, yres_specified := true } :=
            fun l => by rw [modestr_scan, if_neg h1, if_pos h2, if_pos h3]
          rw [ea] at h
          rw [ea, ea]
          exact ih _ _ h
        · have ea : ∀ l, modestr_scan (d :: l) right st = (st, false) :=
            fun l => by rw [modestr_scan, if_neg h1, if_pos h2, if_neg h3]
          rw [ea, ea]
      · by_cases h3 : is_digit d
        · have ea : ∀ l, modestr_scan (d :: l) right st = modestr_scan l (d :: right) st :=
            fun l => by rw [modestr_scan, if_neg h1, if_neg h2, if_pos h3]
          rw [ea] at h
          rw [ea, ea]
          exact ih _ _ h
        · have ea : ∀ l, modestr_scan (d :: l) right st = (st, false) :=
            fun l => by rw [modestr_scan, if_neg h1, if_neg h2, if_neg h3]
          rw [ea, ea]

/-- The rounding of `xres` in `hub12fb_modestr_to_var` for a value from 1 to
`2^32 - 32`. -/
theorem modestr_round_32 (x : Nat) (h1 : 1 ≤ x) (h2 : x ≤ 4294967264) :
    (32 * (((x % U32 + U32 - 1) % U32) / 32 + 1)) % U32 = module_round 32 x := by
  unfold U32 module_round
  omega

/-- The rounding of `yres` in `hub12fb_modestr_to_var` for a value from 1 to
`2^32 - 16`. -/
theorem modestr_round_16 (y : Nat) (h1 : 1 ≤ y) (h2 : y ≤ 4294967280) :
    (16 * (((y % U32 + U32 - 1) % U32) / 16 + 1)) % U32 = module_round 16 y := by
  unfold U32 module_round
  omega

/-- The statements after the label `done` leave `xres` as it is when
`res_specified` is 0. -/
theorem modestr_apply_keeps_xres (st : modestr_state) (var v : fb_var_screeninfo)
    (h : modestr_apply st none var = some v) : v.xres = var.xres := by
  unfold modestr_apply at h
  obtain ⟨w, hw, hv⟩ := Option.bind_eq_some.mp h
  unfold modestr_report at hv
  obtain ⟨_, _, hv⟩ := Option.map_eq_some'.mp hv
  rw [← hv]
  cases hy : st.yres_specified <;> cases hr : st.refresh_specified
  · simp only [hy, hr, Bool.false_eq_true, if_false, Option.some.injEq] at hw
    rw [← hw]
  · simp only [hy, hr, Bool.false_eq_true, if_false, if_true] at hw
    obtain ⟨p, _, hw⟩ := Option.map_eq_some'.mp hw
    rw [← hw]
  · simp only [hy, hr, Bool.false_eq_true, if_false, if_true, Option.some.injEq] at hw
    rw [← hw]
  · simp only [hy, hr, if_true] at hw
    obtain ⟨p, _, hw⟩ := Option.map_eq_some'.mp hw
    rw [← hw]

/-- The function `hub12fb_modestr_to_var` on `"XxY@R"`. -/
theorem modestr_full (var : fb_var_screeninfo) (dx dy dr : List Char) (p k : Nat)
    (hx : all_digits dx) (hy : all_digits dy) (hr : all_digits dr)
    (hx1 : 1 ≤ simple_strtol dx) (hx2 : simple_strtol dx ≤ 4294967264)
    (hy1 : 1 ≤ simple_strtol dy) (hy2 : simple_strtol dy ≤ 4294967280)
    (hr2 : simple_strtol dr < U32)
    (hlen : (dx ++ 'x' :: (dy ++ '@' :: dr)).length ≤ 2 ^ 31)
    (hp : refresh_to_pixclock (simple_strtol dr) { var with
      xres := module_round 32 (simple_strtol dx),
      yres := module_round 16 (simple_strtol dy) } = some p)
    (hk : hub12fb_refresh_rate { var with
      xres := module_round 32 (simple_strtol dx),
      yres := module_round 16 (simple_strtol dy), pixclock := p } = some k) :
    hub12fb_modestr_to_var (some (dx ++ 'x' :: (dy ++ '@' :: dr))) var = some { var with
      xres := module_round 32 (simple_strtol dx),
      yres := module_round 16 (simple_strtol dy), pixclock := p } := by
  rw [modestr_to_var_eq _ _ hlen, scan_full dx dy dr hx hy hr,
    simple_strtol_field dx 'x' _ hx (by decide)]
  simp only [modestr_apply, and_self, if_true, modestr_round_32 _ hx1 hx2,
    modestr_round_16 _ hy1 hy2, Nat.mod_eq_of_lt hr2, hp, Option.map_some', Option.some_bind,
    modestr_report, hk]

/-- The function `hub12fb_modestr_to_var` on `"XxY"`. -/
theorem modestr_geometry (var : fb_var_screeninfo) (dx dy : List Char) (k : Nat)
    (hx : all_digits dx) (hy : all_digits dy)
    (hx1 : 1 ≤ simple_strtol dx) (hx2 : simple_strtol dx ≤ 4294967264)
    (hy1 : 1 ≤ simple_strtol dy) (hy2 : simple_strtol dy ≤ 4294967280)
    (hlen : (dx ++ 'x' :: dy).length ≤ 2 ^ 31)
    (hk : hub12fb_refresh_rate { var with
      xres := module_round 32 (simple_strtol dx),
      yres := module_round 16 (simple_strtol dy) } = some k) :
    hub12fb_modestr_to_var (some (dx ++ 'x' :: dy)) var = some { var with
      xres := module_round 32 (simple_strtol dx),
      yres := module_round 16 (simple_strtol dy) } := by
  rw [modestr_to_var_eq _ _ hlen, scan_geometry dx dy hx hy,
    simple_strtol_field dx 'x' _ hx (by decide)]
  simp only [modestr_apply, and_self, if_true, Bool.false_eq_true, if_false,
    modestr_round_32 _ hx1 hx2, modestr_round_16 _ hy1 hy2, Option.some_bind,
    modestr_report, hk, Option.map_some']

/-- The function `hub12fb_modestr_to_var` on `"@R"`. -/
theorem modestr_refresh (var : fb_var_screeninfo) (dr : List Char) (p k : Nat)
    (hr : all_digits dr) (hr2 : simple_strtol dr < U32)
    (hlen : ('@' :: dr).length ≤ 2 ^ 31)
    (hp : refresh_to_pixclock (simple_strtol dr) var = some p)
    (hk : hub12fb_refresh_rate { var with pixclock := p } = some k) :
    hub12fb_modestr_to_var (some ('@' :: dr)) var = some { var with pixclock := p } := by
  rw [modestr_to_var_eq _ _ hlen, scan_refresh dr hr]
  simp only [modestr_apply, Bool.false_eq_true, and_false, if_false, if_true,
    Nat.mod_eq_of_lt hr2, hp, Option.map_some', Option.some_bind, modestr_report, hk]

/-- The function `hub12fb_modestr_to_var` on a string with neither `'x'` nor
`'@'`. -/
theorem modestr_no_field (var : fb_var_screeninfo) (s : List Char) (k : Nat)
    (hs : ∀ c ∈ s, c ≠ 'x' ∧ c ≠ '@') (hk : hub12fb_refresh_rate var = some k) :
    hub12fb_modestr_to_var (some s) var = some var := by
  have hscan : (modestr_scan (s.take (s.length % U32)).reverse (s.drop (s.length % U32))
      modestr_init).1 = modestr_init :=
    scan_no_field modestr_init _ _
      (fun c hc => hs c (List.mem_of_mem_take (List.mem_reverse.mp hc)))
  have happly : modestr_apply modestr_init none var = some var := by
    simp only [modestr_apply, modestr_init, Bool.false_eq_true, if_false, Option.some_bind,
      modestr_report, hk, Option.map_some']
  unfold hub12fb_modestr_to_var
  by_cases h0 : 0 ≤ to_s32 (((s.length % U32 : Nat) : Int) - 1)
  · simp only [if_pos h0, hscan]
    rw [if_neg (by rw [modestr_init]; simp)]
    exact happly
  · simp only [if_neg h0]
    rw [if_neg (by rw [modestr_init]; simp)]
    exact happly

/-- The function `hub12fb_modestr_to_var` on a string with a character that stops
the loop. -/
theorem modestr_stopped (var : fb_var_screeninfo) (pre : List Char) (c : Char)
    (suf : List Char) (hlen : (pre ++ c :: suf).length ≤ 2 ^ 31)
    (h : (modestr_scan suf.reverse [] modestr_init).2 = false ∨
      scan_stops c (modestr_scan suf.reverse [] modestr_init).1) :
    hub12fb_modestr_to_var (some (pre ++ c :: suf)) var =
      modestr_apply (modestr_scan suf.reverse [] modestr_init).1 none var := by
  have hrev : (pre ++ c :: suf).reverse = suf.reverse ++ c :: pre.reverse := by simp
  rw [modestr_to_var_eq _ _ hlen, hrev, scan_stopped c _ _ _ _ h]
  simp only [Bool.false_eq_true, false_and, if_false]

/-- C14, counterexample: the fields are stored in `unsigned int` variables, so
`"4294967297x16@60"` sets `xres` to 32 and not to 4294967297 rounded up to a
multiple of 32; and on `"32x16@2000000"`, where the pixel clock of the refresh rate
is 0, the function does not return: the call of `hub12fb_refresh_rate` in its
`printk` divides by 0. -/
theorem mode_string_field_wraps :
    simple_strtol ['4', '2', '9', '4', '9', '6', '7', '2', '9', '7'] = 4294967297 ∧
    module_round 32 4294967297 = 4294967328 ∧
    (hub12fb_modestr_to_var
      (some ['4', '2', '9', '4', '9', '6', '7', '2', '9', '7', 'x', '1', '6', '@', '6', '0'])
      var_probe).map (fun v => v.xres) = some 32 ∧
    hub12fb_modestr_to_var
      (some ['3', '2', 'x', '1', '6', '@', '2', '0', '0', '0', '0', '0', '0'])
      var_probe = none := by
  decide

/-- C14, as amended. A decimal field is a string of digits and its value is what
`simple_strtol` reads; the fields are `unsigned int`, and the function returns when
the division in `refresh_to_pixclock` and the call of `hub12fb_refresh_rate` in its
`printk` do. For a string that fits an `int`:

* `"XxY@R"` with `1 ≤ X ≤ 2^32 - 32`, `1 ≤ Y ≤ 2^32 - 16` and `R < 2^32` sets `xres`
  to `X` rounded up to a multiple of 32, `yres` to `Y` rounded up to a multiple of
  16 and `pixclock` to `refresh_to_pixclock(R)` at that geometry;
* `"XxY"` sets `xres` and `yres` in the same way and leaves `pixclock` as it is;
* `"@R"` sets `pixclock` to `refresh_to_pixclock(R)` and leaves `xres` and `yres`;
* a string of any length with neither `'x'` nor `'@'` leaves `var` as it is;
* a character that is no digit, `'x'` or `'@'`, an `'@'` after a field, and an
  `'x'` after `yres`, stop the scan: the result is that of the statements after
  `done` for the variables the loop has set on the part of the string to the right
  of that character, and they leave `xres` as it is. -/
theorem mode_string_grammar (var : fb_var_screeninfo) :
    (∀ (dx dy dr : List Char) (p k : Nat),
      all_digits dx → all_digits dy → all_digits dr →
      1 ≤ simple_strtol dx → simple_strtol dx ≤ 4294967264 →
      1 ≤ simple_strtol dy → simple_strtol dy ≤ 4294967280 →
      simple_strtol dr < U32 →
      (dx ++ 'x' :: (dy ++ '@' :: dr)).length ≤ 2 ^ 31 →
      refresh_to_pixclock (simple_strtol dr) { var with
        xres := module_round 32 (simple_strtol dx),
        yres := module_round 16 (simple_strtol dy) } = some p →
      hub12fb_refresh_rate { var with
        xres := module_round 32 (simple_strtol dx),
        yres := module_round 16 (simple_strtol dy), pixclock := p } = some k →
      hub12fb_modestr_to_var (some (dx ++ 'x' :: (dy ++ '@' :: dr))) var = some { var with
        xres := module_round 32 (simple_strtol dx),
        yres := module_round 16 (simple_strtol dy), pixclock := p }) ∧
    (∀ (dx dy : List Char) (k : Nat),
      all_digits dx → all_digits dy →
      1 ≤ simple_strtol dx → simple_strtol dx ≤ 4294967264 →
      1 ≤ simple_strtol dy → simple_strtol dy ≤ 4294967280 →
      (dx ++ 'x' :: dy).length ≤ 2 ^ 31 →
      hub12fb_refresh_rate { var with
        xres := module_round 32 (simple_strtol dx),
        yres := module_round 16 (simple_strtol dy) } = some k →
      hub12fb_modestr_to_var (some (dx ++ 'x' :: dy)) var = some { var with
        xres := module_round 32 (simple_strtol dx),
        yres := module_round 16 (simple_strtol dy) }) ∧
    (∀ (dr : List Char) (p k : Nat),
      all_digits dr → simple_strtol dr < U32 → ('@' :: dr).length ≤ 2 ^ 31 →
      refresh_to_pixclock (simple_strtol dr) var = some p →
      hub12fb_refresh_rate { var with pixclock := p } = some k →
      hub12fb_modestr_to_var (some ('@' :: dr)) var = some { var with pixclock := p }) ∧
    (∀ (s : List Char) (k : Nat),
      (∀ c ∈ s, c ≠ 'x' ∧ c ≠ '@') → hub12fb_refresh_rate var = some k →
      hub12fb_modestr_to_var (some s) var = some var) ∧
    (∀ (pre : List Char) (c : Char) (suf : List Char),
      (pre ++ c :: suf).length ≤ 2 ^ 31 →
      ((modestr_scan suf.reverse [] modestr_init).2 = false ∨
        scan_stops c (modestr_scan suf.reverse [] modestr_init).1) →
      hub12fb_modestr_to_var (some (pre ++ c :: suf)) var =
        modestr_apply (modestr_scan suf.reverse [] modestr_init).1 none var) ∧
    (∀ (st : modestr_state) (v : fb_var_screeninfo),
      modestr_apply st none var = some v → v.xres = var.xres) :=
  ⟨fun dx dy dr p k hx hy hr hx1 hx2 hy1 hy2 hr2 hlen hp hk =>
      modestr_full var dx dy dr p k hx hy hr hx1 hx2 hy1 hy2 hr2 hlen hp hk,
   fun dx dy k hx hy hx1 hx2 hy1 hy2 hlen hk =>
      modestr_geometry var dx dy k hx hy hx1 hx2 hy1 hy2 hlen hk,
   fun dr p k hr hr2 hlen hp hk => modestr_refresh var dr p k hr hr2 hlen hp hk,
   fun s k hs hk => modestr_no_field var s k hs hk,
   fun pre c suf hlen h => modestr_stopped var pre c suf hlen h,
   fun st v h => modestr_apply_keeps_xres st var v h⟩

/-- C14, as amended, on the `var` of `hub12fb_probe`: `"33x17@100"` gives 64 x 32
pixels at the pixel clock of 100 Hz, `"33x17"` the same geometry at the old pixel
clock, `"@30"` the old geometry at the pixel clock of 30 Hz, `"123"` no change, and
in `"7ax48@30"` the `'a'` stops the scan after `yres` and the refresh rate have
been set. -/
theorem mode_string_grammar_witness :
    hub12fb_modestr_to_var (some ['3', '3', 'x', '1', '7', '@', '1', '0', '0']) var_probe =
      some { var_probe with xres := 64, yres := 32, pixclock := 4882000 } ∧
    hub12fb_modestr_to_var (some ['3', '3', 'x', '1', '7']) var_probe =
      some { var_probe with xres := 64, yres := 32 } ∧
    hub12fb_modestr_to_var (some ['@', '3', '0']) var_probe =
      some { var_probe with pixclock := 65104000 } ∧
    hub12fb_modestr_to_var (some ['1', '2', '3']) var_probe = some var_probe ∧
    hub12fb_modestr_to_var (some ['7', 'a', 'x', '4', '8', '@', '3', '0']) var_probe =
      modestr_apply { refresh := 30, yres := 48, refresh_specified := true,
                      yres_specified := true } none var_probe :=
  ⟨(mode_string_grammar var_probe).1 ['3', '3'] ['1', '7'] ['1', '0', '0'] 4882000 100
      (by decide) (by decide) (by decide) (by decide) (by decide) (by decide) (by decide)
      (by decide) (by decide) (by decide) (by decide),
   (mode_string_grammar var_probe).2.1 ['3', '3'] ['1', '7'] 15
      (by decide) (by decide) (by decide) (by decide) (by decide) (by decide) (by decide)
      (by decide),
   (mode_string_grammar var_probe).2.2.1 ['3', '0'] 65104000 30
      (by decide) (by decide) (by decide) (by decide) (by decide),
   (mode_string_grammar var_probe).2.2.2.1 ['1', '2', '3'] 60 (by decide) (by decide),
   (mode_string_grammar var_probe).2.2.2.2.1 ['7'] 'a' ['x', '4', '8', '@', '3', '0']
      (by decide) (by decide)⟩

end Hub12fb
